import Mathlib
/-!
Verification of the pytypopo typography-fixing engine.

The development shallowly embeds the parts of the Python code that the
checked properties are about: the locale profiles (`locale/base.py`),
the iterative overlap-safe rewriter (`utils/regex_overlap.py`), the
exception token ledger (`modules/words/exceptions.py`), the dash
normalizer (`modules/punctuation/dash.py`) and the double- and
single-quote disambiguators (`modules/punctuation/double_quotes.py`,
`modules/punctuation/single_quotes.py`).

Those modules are built on Python's `re` library, so the embedding
contains a small backtracking regular-expression engine with ordered
alternation, greedy and lazy bounded repetition, capturing groups,
word boundaries and anchors, mirroring the leftmost, left-to-right
backtracking semantics of `re`.  Each compiled Python pattern is
transcribed literally into the `RE` syntax below and executed by the
engine.  Strings are modelled as `List Char` of Unicode code points,
which matches Python `str` semantics for every operation used by the
code (indexing, slicing, concatenation, substring search).
-/

/-- ASCII lowercasing of one character.  This models Python's
`str.lower` on the character repertoire relevant to the embedded code
(locale identifiers and pattern constants are ASCII); non-ASCII
characters are left unchanged. -/
def lowerA (c : Char) : Char :=
  if 'A' ≤ c ∧ c ≤ 'Z' then Char.ofNat (c.toNat + 32) else c

/-- ASCII uppercasing of one character, the counterpart of `lowerA`,
used for `re.IGNORECASE` matching. -/
def upperA (c : Char) : Char :=
  if 'a' ≤ c ∧ c ≤ 'z' then Char.ofNat (c.toNat - 32) else c

/-- Python `str.lower` on a whole string (ASCII model, see `lowerA`). -/
def pyLower (s : String) : String :=
  String.mk (s.data.map lowerA)

/-!
Constants from `pytypopo/const.py`, transcribed verbatim.  The
`NON_LATIN_*` strings are copied code point for code point from the
source file.
-/
/-- Constant `NON_LATIN_LOWERCASE` from `const.py` (the source file's
literal code points, written here as escapes). -/
def NON_LATIN_LOWERCASE : String :=
  "\u8C29\u76F2\u81B7\u81B9\u8305\u81CE\u94C6\u66AE\u6728\u824C\u8D38\u4E48\u679A\u8256\u825C\u8261\u62E7\u94AE\u7164\u7709\u759F\u6696\u5A92\u6B27\u556A\u90AA\u659C\u80C1\u8C10\u8992\u5199\u68B0\u87F9\u8928\u61C8\u6CC4\u6CFB\u8C22\u5C51\u85AA\u82AF\u950C\u8909\u890B\u890C\u890D\u890E\u8917\u8918\u891C\u8911\u8914\u5378\u8915\u8929\u8916\u8922\u8926\u891E\u891F\u890F"

/-- Constant `NON_LATIN_UPPERCASE` from `const.py` (the source file's
literal code points, written here as escapes). -/
def NON_LATIN_UPPERCASE : String :=
  "\u8115\u811B\u81B6\u81B8\u8121\u81CD\u8125\u5893\u6155\u824A\u812B\u812D\u8130\u8255\u825B\u8260\u8269\u626D\u8137\u813A\u8650\u5973\u813B\u54E6\u6CA4\u8897\u8898\u8899\u889A\u8991\u889B\u889D\u889F\u8889\u88A0\u88A1\u88A3\u88A5\u88A6\u88A7\u88A8\u88A9\u88AA\u5C0F\u5B5D\u6821\u8096\u6B47\u874E\u978B\u7B11\u6548\u889E\u6954\u888A\u4E9B\u887C\u8886\u631F\u643A\u5578"

/-- Constant `NON_LATIN_CHARS` from `const.py`. -/
def NON_LATIN_CHARS : String := NON_LATIN_LOWERCASE ++ NON_LATIN_UPPERCASE

/-- Word-character test used for the `\b` and `\B` assertions of
Python `re` (Unicode flavour restricted to the character repertoire of
this code base: ASCII alphanumerics, underscore, and the non-Latin
letters listed in `const.py`). -/
def pyIsWord (c : Char) : Bool :=
  ('a' ≤ c && c ≤ 'z') || ('A' ≤ c && c ≤ 'Z') || ('0' ≤ c && c ≤ '9') ||
    c == '_' || NON_LATIN_CHARS.data.contains c

/-!
The regular-expression syntax.  A character class is a list of items:
single characters, code-point ranges, or every character of a constant
string (the transcription of class fragments such as `{SPACES}` or
`{NON_LATIN_LOWERCASE}` inside `[...]`).
-/
/-- One item of a regex character class. -/
inductive ClsItem where
  | one (c : Char)
  | range (lo hi : Char)
  | ofStr (s : String)
  deriving Repr, DecidableEq

/-- Regular-expression syntax covering the constructs used by the
embedded patterns: character classes (`cls`), the dot, concatenation,
ordered alternation, bounded greedy or lazy repetition, capturing
groups (numbered as in Python), word boundaries `\b`/`\B`, and the
`^`/`$` anchors with their `re.MULTILINE` variants. -/
inductive RE where
  | eps
  | cls (neg : Bool) (items : List ClsItem)
  | dot (dotAll : Bool)
  | cat (a b : RE)
  | alt (a b : RE)
  | rep (lo : Nat) (hi : Option Nat) (lazy : Bool) (a : RE)
  | grp (idx : Nat) (a : RE)
  | wordB (pos : Bool)
  | bol (ml : Bool)
  | eol (ml : Bool)
  deriving Repr, DecidableEq

/-- Does character `c` match one class item? -/
def clsItemMatch (c : Char) : ClsItem → Bool
  | ClsItem.one d => c == d
  | ClsItem.range lo hi => lo.toNat ≤ c.toNat && c.toNat ≤ hi.toNat
  | ClsItem.ofStr s => s.data.contains c

/-- Does `c` match any item of the list? -/
def clsMatchBase (items : List ClsItem) (c : Char) : Bool :=
  items.any (clsItemMatch c)

/-- Full class matching: under `re.IGNORECASE` (`ci`) a character also
also matches with its upper/lower-case forms; `neg` complements the class
afterwards, exactly as Python does. -/
def clsMatch (ci neg : Bool) (items : List ClsItem) (c : Char) : Bool :=
  let m := clsMatchBase items c ||
    (ci && (clsMatchBase items (lowerA c) || clsMatchBase items (upperA c)))
  if neg then !m else m

/-- Captured groups: group index paired with the captured code points.
The most recent capture of a group is listed first, matching Python's
rule that a repeated group keeps its last capture. -/
def Caps : Type := List (Nat × List Char)

/-- Look up the current value of group `i`. -/
def capsGet (caps : Caps) (i : Nat) : Option (List Char) :=
  (List.find? (fun p => p.1 == i) caps).map (fun p => p.2)

/-- Group value for substitution templates: Python replaces a group
that did not participate in the match by the empty string. -/
def capsTpl (caps : Caps) (i : Nat) : List Char :=
  (capsGet caps i).getD []

/-- Word-character test on an optional character (`none` at the ends
of the subject string). -/
def isWordOpt : Option Char → Bool
  | none => false
  | some c => pyIsWord c

/-- `$` test: at the very end, or (non-multiline) just before a final
newline, or (multiline) just before any newline. -/
def eolHolds (ml : Bool) (rest : List Char) : Bool :=
  match rest with
  | [] => true
  | c :: rs => c == '\n' && (ml || rs.isEmpty)

/-- `^` test: at the very start, or (multiline) just after a newline. -/
def bolHolds (ml : Bool) (prev : Option Char) : Bool :=
  match prev with
  | none => true
  | some c => ml && c == '\n'

/-- The backtracking matcher, written in continuation-passing style.
`prev` is the character just before the current position (for `\b` and
`^`), `rest` the remaining subject.  The continuation receives the new
`prev`, the remaining subject and the captures.  Ordered alternation
tries the left branch with the full continuation first, greedy
repetition prefers one more iteration, lazy repetition prefers to stop:
this reproduces the leftmost backtracking semantics of Python `re`.
The fuel argument only forces termination; every use supplies enough
fuel for the pattern and subject at hand. -/
def reMatch (ci : Bool) :
    Nat → RE → Option Char → List Char → Caps →
    (Option Char → List Char → Caps → Option (List Char × Caps)) →
    Option (List Char × Caps)
  | 0, _, _, _, _, _ => none
  | fuel + 1, re, prev, rest, caps, k =>
    match re with
    | RE.eps => k prev rest caps
    | RE.cls neg items =>
      match rest with
      | [] => none
      | c :: rs => if clsMatch ci neg items c then k (some c) rs caps else none
    | RE.dot dotAll =>
      match rest with
      | [] => none
      | c :: rs => if dotAll || c != '\n' then k (some c) rs caps else none
    | RE.cat a b =>
      reMatch ci fuel a prev rest caps (fun p r cp => reMatch ci fuel b p r cp k)
    | RE.alt a b =>
      (reMatch ci fuel a prev rest caps k) <|> (reMatch ci fuel b prev rest caps k)
    | RE.rep lo hi lz a =>
      match lo with
      | 0 =>
        match hi with
        | some 0 => k prev rest caps
        | _ =>
          let more := reMatch ci fuel a prev rest caps (fun p r cp =>
            reMatch ci fuel (RE.rep 0 (hi.map (fun m => m - 1)) lz a) p r cp k)
          if lz then (k prev rest caps) <|> more else more <|> (k prev rest caps)
      | lo' + 1 =>
        reMatch ci fuel a prev rest caps (fun p r cp =>
          reMatch ci fuel (RE.rep lo' (hi.map (fun m => m - 1)) lz a) p r cp k)
    | RE.grp i a =>
      reMatch ci fuel a prev rest caps (fun p r cp =>
        k p r ((i, rest.take (rest.length - r.length)) :: cp))
    | RE.wordB pos =>
      if (isWordOpt prev != isWordOpt rest.head?) == pos then k prev rest caps else none
    | RE.bol ml => if bolHolds ml prev then k prev rest caps else none
    | RE.eol ml => if eolHolds ml rest then k prev rest caps else none

/-- Structural size of a pattern, used to compute a sufficient fuel. -/
def reSize : RE → Nat
  | RE.eps => 1
  | RE.cls _ _ => 1
  | RE.dot _ => 1
  | RE.cat a b => reSize a + reSize b + 1
  | RE.alt a b => reSize a + reSize b + 1
  | RE.rep _ _ _ a => reSize a + 1
  | RE.grp _ a => reSize a + 1
  | RE.wordB _ => 1
  | RE.bol _ => 1
  | RE.eol _ => 1

/-- Fuel that is amply sufficient for the patterns of this code base:
every repetition body consumes at least one character, so the depth of
the backtracking recursion is bounded by the pattern size times the
square of the subject length. -/
def enoughFuel (re : RE) (len : Nat) : Nat :=
  (reSize re + 8) * (len + 4) * (len + 4)

/-- A compiled pattern: the transcribed syntax plus the
`re.IGNORECASE` flag (the `re.MULTILINE` and `re.DOTALL` flags are
baked into the `bol`/`eol`/`dot` nodes during transcription). -/
structure Pat where
  ci : Bool
  re : RE
  deriving Repr

/-- Try to match `p` at the current position.  Returns the number of
consumed characters and the captures of the successful match. -/
def matchAt (p : Pat) (prev : Option Char) (rest : List Char) :
    Option (Nat × Caps) :=
  match reMatch p.ci (enoughFuel p.re rest.length) p.re prev rest []
      (fun _ r cp => some (r, cp)) with
  | none => none
  | some (r, cp) => some (rest.length - r.length, cp)

/-- Scanning loop of `re.sub`: walk the subject left to right, replace
each non-overlapping leftmost match using `repl` (which receives the
matched code points and the captures), copy unmatched characters.  An
empty match emits its replacement and then copies one character, as
Python ≥ 3.7 does.  Matching always happens against the original
subject; `prev` is the original character preceding the scan point. -/
def subLoop (p : Pat) (repl : List Char → Caps → List Char) :
    Nat → Option Char → List Char → List Char
  | 0, _, todo => todo
  | fuel + 1, prev, todo =>
    match matchAt p prev todo with
    | some (n + 1, cp) =>
      let m := todo.take (n + 1)
      repl m cp ++ subLoop p repl fuel m.getLast? (todo.drop (n + 1))
    | some (0, cp) =>
      match todo with
      | [] => repl [] cp
      | c :: t => repl [] cp ++ c :: subLoop p repl fuel (some c) t
    | none =>
      match todo with
      | [] => []
      | c :: t => c :: subLoop p repl fuel (some c) t

/-- Python `pattern.sub(repl, text)` with a replacement function on
code points and captures. -/
def pySubF (p : Pat) (repl : List Char → Caps → List Char) (text : String) : String :=
  String.mk (subLoop p repl (text.data.length + 1) none text.data)

/-- Scanning loop of `pattern.finditer`: spans (start, end) plus the
matched code points, leftmost and non-overlapping. -/
def findLoop (p : Pat) :
    Nat → Nat → Option Char → List Char → List (Nat × Nat × List Char)
  | 0, _, _, _ => []
  | fuel + 1, pos, prev, todo =>
    match matchAt p prev todo with
    | some (n + 1, _) =>
      let m := todo.take (n + 1)
      (pos, pos + (n + 1), m) :: findLoop p fuel (pos + (n + 1)) m.getLast? (todo.drop (n + 1))
    | some (0, _) =>
      match todo with
      | [] => [(pos, pos, [])]
      | c :: t => (pos, pos, []) :: findLoop p fuel (pos + 1) (some c) t
    | none =>
      match todo with
      | [] => []
      | c :: t => findLoop p fuel (pos + 1) (some c) t

/-- Python `pattern.finditer(text)`, as a list of `(start, end, match)`. -/
def pyFindIter (p : Pat) (text : String) : List (Nat × Nat × List Char) :=
  findLoop p (text.data.length + 1) 0 none text.data

/-!
Convenience constructors used by the pattern transcriptions.
-/
/-- Concatenation of a list of patterns. -/
def reSeq (l : List RE) : RE := l.foldr RE.cat RE.eps

/-- Ordered alternation of a non-empty list of patterns. -/
def reAlts (l : List RE) : RE :=
  match l with
  | [] => RE.eps
  | [r] => r
  | r :: rs => RE.alt r (reAlts rs)

/-- A single literal character. -/
def reChar (c : Char) : RE := RE.cls false [ClsItem.one c]

/-- A literal string (each character matched verbatim). -/
def reStr (s : String) : RE := reSeq (s.data.map reChar)

/-- Greedy `?`. -/
def reOpt (r : RE) : RE := RE.rep 0 (some 1) false r

/-- Greedy `*`. -/
def reStar (r : RE) : RE := RE.rep 0 none false r

/-- Greedy `+`. -/
def rePlus (r : RE) : RE := RE.rep 1 none false r

/-- Lazy `*?`. -/
def reStarL (r : RE) : RE := RE.rep 0 none true r

/-- Lazy `+?`. -/
def rePlusL (r : RE) : RE := RE.rep 1 none true r

/-- Positive character class. -/
def reCls (items : List ClsItem) : RE := RE.cls false items

/-- Negated character class. -/
def reNCls (items : List ClsItem) : RE := RE.cls true items

/-!
Character-class constants from `const.py`, transcribed as class-item
lists (in the Python source they are string fragments spliced into
`[...]` classes; a `-` between two characters there denotes a range).
-/
/-- Class content of `LOWERCASE_CHARS` (`a-z` plus the non-Latin list). -/
def LOWERCASE_CHARS : List ClsItem :=
  [ClsItem.range 'a' 'z', ClsItem.ofStr NON_LATIN_LOWERCASE]

/-- Class content of `UPPERCASE_CHARS` (`A-Z` plus the non-Latin list). -/
def UPPERCASE_CHARS : List ClsItem :=
  [ClsItem.range 'A' 'Z', ClsItem.ofStr NON_LATIN_UPPERCASE]

/-- Class content of `ALL_CHARS`. -/
def ALL_CHARS : List ClsItem := LOWERCASE_CHARS ++ UPPERCASE_CHARS

/-- Constant `SPACE`. -/
def SPACE : String := " "

/-- Constant `NBSP` (non-breaking space). -/
def NBSP : String := " "

/-- Constant `HAIR_SPACE`. -/
def HAIR_SPACE : String := " "

/-- Constant `NARROW_NBSP`. -/
def NARROW_NBSP : String := " "

/-- Constant `SPACES` (the four space characters). -/
def SPACES : String := SPACE ++ NBSP ++ HAIR_SPACE ++ NARROW_NBSP

/-- Class content of `[{SPACES}]`. -/
def SPACES_C : List ClsItem := [ClsItem.ofStr SPACES]

/-- Class content of `TERMINAL_PUNCTUATION` (`\.\!\?`). -/
def TERMINAL_PUNCTUATION : List ClsItem :=
  [ClsItem.one '.', ClsItem.one '!', ClsItem.one '?']

/-- Class content of `SENTENCE_PAUSE_PUNCTUATION` (`\,\:\;`). -/
def SENTENCE_PAUSE_PUNCTUATION : List ClsItem :=
  [ClsItem.one ',', ClsItem.one ':', ClsItem.one ';']

/-- Class content of `SENTENCE_PUNCTUATION` (pause then terminal). -/
def SENTENCE_PUNCTUATION : List ClsItem :=
  SENTENCE_PAUSE_PUNCTUATION ++ TERMINAL_PUNCTUATION

/-- Class content of `OPENING_BRACKETS` (`\(\[\{`). -/
def OPENING_BRACKETS : List ClsItem :=
  [ClsItem.one '(', ClsItem.one '[', ClsItem.one '\x7b']

/-- Class content of `CLOSING_BRACKETS` (`\)\]\}`). -/
def CLOSING_BRACKETS : List ClsItem :=
  [ClsItem.one ')', ClsItem.one ']', ClsItem.one '\x7d']

/-- Constant `ELLIPSIS` (U+2026). -/
def ELLIPSIS : Char := '…'

/-- Constant `HYPHEN`. -/
def HYPHEN : Char := '-'

/-- Constant `EN_DASH` (U+2013). -/
def EN_DASH : Char := '–'

/-- Constant `EM_DASH` (U+2014). -/
def EM_DASH : Char := '—'

/-- Constant `ROMAN_NUMERALS`. -/
def ROMAN_NUMERALS : String := "IVXLCDM"

/-- Constant `PERCENT`. -/
def PERCENT : Char := '%'

/-- Constant `PERMILLE` (U+2030). -/
def PERMILLE : Char := '‰'

/-- Constant `PERMYRIAD` (U+2031). -/
def PERMYRIAD : Char := '‱'

/-- Constant `APOSTROPHE` (U+2019, typographic apostrophe). -/
def APOSTROPHE : Char := '’'

/-- Constant `SINGLE_PRIME` (U+2032). -/
def SINGLE_PRIME : Char := '′'

/-- Constant `DOUBLE_PRIME` (U+2033). -/
def DOUBLE_PRIME : Char := '″'

/-- Class item for `\d`. -/
def DIGIT : ClsItem := ClsItem.range '0' '9'

/-!
Locale profiles from `locale/base.py`.  The configuration table
`LOCALE_CONFIGS` is transcribed field by field; the `Locale` class (here `LocaleProfile`)
constructor only copies the configuration and derives
`terminal_quotes`, so the embedding merges the two.
-/
/-- Quote constant `LEFT_DOUBLE_QUOTE` (U+201C). -/
def LEFT_DOUBLE_QUOTE : String := "“"

/-- Quote constant `RIGHT_DOUBLE_QUOTE` (U+201D). -/
def RIGHT_DOUBLE_QUOTE : String := "”"

/-- Quote constant `LEFT_SINGLE_QUOTE` (U+2018). -/
def LEFT_SINGLE_QUOTE : String := "‘"

/-- Quote constant `RIGHT_SINGLE_QUOTE` (U+2019). -/
def RIGHT_SINGLE_QUOTE : String := "’"

/-- Quote constant `DOUBLE_LOW_9_QUOTE` (U+201E). -/
def DOUBLE_LOW_9_QUOTE : String := "„"

/-- Quote constant `SINGLE_LOW_9_QUOTE` (U+201A). -/
def SINGLE_LOW_9_QUOTE : String := "‚"

/-- Quote constant `LEFT_GUILLEMET` (U+00AB). -/
def LEFT_GUILLEMET : String := "«"

/-- Quote constant `RIGHT_GUILLEMET` (U+00BB). -/
def RIGHT_GUILLEMET : String := "»"

/-- Quote constant `LEFT_SINGLE_GUILLEMET` (U+2039). -/
def LEFT_SINGLE_GUILLEMET : String := "‹"

/-- Quote constant `RIGHT_SINGLE_GUILLEMET` (U+203A). -/
def RIGHT_SINGLE_GUILLEMET : String := "›"

/-- Constant `DEFAULT_LOCALE`. -/
def DEFAULT_LOCALE : String := "en-us"

/-- The per-locale configuration record: every key of one entry of
`LOCALE_CONFIGS`, plus the derived fields `locale_id` and
`terminal_quotes` that the `Locale` constructor adds. -/
structure LocaleProfile where
  locale_id : String
  double_quote_open : String
  double_quote_close : String
  single_quote_open : String
  single_quote_close : String
  ordinal_indicator : String
  roman_ordinal_indicator : String
  ordinal_date_first_space : String
  ordinal_date_second_space : String
  space_before_percent : String
  dash_space_before : String
  dash_char : String
  dash_space_after : String
  space_after_abbreviation : String
  space_after_copyright : String
  space_after_sound_recording_copyright : String
  space_after_numero_sign : String
  space_after_section_sign : String
  space_after_paragraph_sign : String
  terminal_quotes : String
  deriving Repr, DecidableEq

/-- The `en-us` entry of `LOCALE_CONFIGS` (with the constructor's
derived fields). -/
def localeEnUs : LocaleProfile :=
  { locale_id := "en-us"
    double_quote_open := LEFT_DOUBLE_QUOTE
    double_quote_close := RIGHT_DOUBLE_QUOTE
    single_quote_open := LEFT_SINGLE_QUOTE
    single_quote_close := RIGHT_SINGLE_QUOTE
    ordinal_indicator := "st|nd|rd|th"
    roman_ordinal_indicator := ""
    ordinal_date_first_space := NBSP
    ordinal_date_second_space := NBSP
    space_before_percent := ""
    dash_space_before := ""
    dash_char := String.mk [EM_DASH]
    dash_space_after := ""
    space_after_abbreviation := ""
    space_after_copyright := NBSP
    space_after_sound_recording_copyright := NBSP
    space_after_numero_sign := NBSP
    space_after_section_sign := NBSP
    space_after_paragraph_sign := NBSP
    terminal_quotes := RIGHT_DOUBLE_QUOTE ++ RIGHT_SINGLE_QUOTE }

/-- The `de-de` entry of `LOCALE_CONFIGS`. -/
def localeDeDe : LocaleProfile :=
  { locale_id := "de-de"
    double_quote_open := DOUBLE_LOW_9_QUOTE
    double_quote_close := LEFT_DOUBLE_QUOTE
    single_quote_open := SINGLE_LOW_9_QUOTE
    single_quote_close := LEFT_SINGLE_QUOTE
    ordinal_indicator := "\\."
    roman_ordinal_indicator := "\\."
    ordinal_date_first_space := NBSP
    ordinal_date_second_space := SPACE
    space_before_percent := NARROW_NBSP
    dash_space_before := HAIR_SPACE
    dash_char := String.mk [EN_DASH]
    dash_space_after := HAIR_SPACE
    space_after_abbreviation := NBSP
    space_after_copyright := NBSP
    space_after_sound_recording_copyright := NBSP
    space_after_numero_sign := NBSP
    space_after_section_sign := NBSP
    space_after_paragraph_sign := NBSP
    terminal_quotes := LEFT_DOUBLE_QUOTE ++ LEFT_SINGLE_QUOTE }

/-- The `cs` entry of `LOCALE_CONFIGS`. -/
def localeCs : LocaleProfile :=
  { locale_id := "cs"
    double_quote_open := DOUBLE_LOW_9_QUOTE
    double_quote_close := LEFT_DOUBLE_QUOTE
    single_quote_open := SINGLE_LOW_9_QUOTE
    single_quote_close := LEFT_SINGLE_QUOTE
    ordinal_indicator := "\\."
    roman_ordinal_indicator := "\\."
    ordinal_date_first_space := NBSP
    ordinal_date_second_space := NBSP
    space_before_percent := NBSP
    dash_space_before := NBSP
    dash_char := String.mk [EN_DASH]
    dash_space_after := SPACE
    space_after_abbreviation := NBSP
    space_after_copyright := SPACE
    space_after_sound_recording_copyright := SPACE
    space_after_numero_sign := NBSP
    space_after_section_sign := NBSP
    space_after_paragraph_sign := NBSP
    terminal_quotes := LEFT_DOUBLE_QUOTE ++ LEFT_SINGLE_QUOTE }

/-- The `sk` entry of `LOCALE_CONFIGS`. -/
def localeSk : LocaleProfile :=
  { locale_id := "sk"
    double_quote_open := DOUBLE_LOW_9_QUOTE
    double_quote_close := LEFT_DOUBLE_QUOTE
    single_quote_open := SINGLE_LOW_9_QUOTE
    single_quote_close := LEFT_SINGLE_QUOTE
    ordinal_indicator := "\\."
    roman_ordinal_indicator := "\\."
    ordinal_date_first_space := NBSP
    ordinal_date_second_space := NBSP
    space_before_percent := NBSP
    dash_space_before := HAIR_SPACE
    dash_char := String.mk [EM_DASH]
    dash_space_after := HAIR_SPACE
    space_after_abbreviation := NBSP
    space_after_copyright := NBSP
    space_after_sound_recording_copyright := NBSP
    space_after_numero_sign := NBSP
    space_after_section_sign := NARROW_NBSP
    space_after_paragraph_sign := NARROW_NBSP
    terminal_quotes := LEFT_DOUBLE_QUOTE ++ LEFT_SINGLE_QUOTE }

/-- The `rue` entry of `LOCALE_CONFIGS`. -/
def localeRue : LocaleProfile :=
  { locale_id := "rue"
    double_quote_open := LEFT_GUILLEMET
    double_quote_close := RIGHT_GUILLEMET
    single_quote_open := LEFT_SINGLE_GUILLEMET
    single_quote_close := RIGHT_SINGLE_GUILLEMET
    ordinal_indicator := "\\."
    roman_ordinal_indicator := "\\."
    ordinal_date_first_space := NBSP
    ordinal_date_second_space := NBSP
    space_before_percent := NBSP
    dash_space_before := HAIR_SPACE
    dash_char := String.mk [EM_DASH]
    dash_space_after := HAIR_SPACE
    space_after_abbreviation := NBSP
    space_after_copyright := NBSP
    space_after_sound_recording_copyright := NBSP
    space_after_numero_sign := NBSP
    space_after_section_sign := NARROW_NBSP
    space_after_paragraph_sign := NARROW_NBSP
    terminal_quotes := LEFT_GUILLEMET ++ LEFT_SINGLE_GUILLEMET }

/-- The `LOCALE_CONFIGS` table. -/
def LOCALE_CONFIGS : List (String × LocaleProfile) :=
  [("en-us", localeEnUs), ("de-de", localeDeDe), ("cs", localeCs),
   ("sk", localeSk), ("rue", localeRue)]

/-- The set `SUPPORTED_LOCALES` (keys of `LOCALE_CONFIGS`). -/
def SUPPORTED_LOCALES : List String := LOCALE_CONFIGS.map Prod.fst

/-- The five locale profiles, for quantification in theorems. -/
def allLocales : List LocaleProfile := LOCALE_CONFIGS.map Prod.snd

/-- Method `Locale._normalize_locale_id`: `None` and the empty string
(Python falsy strings) give the default; otherwise lowercase, and an
unsupported id gives the default. -/
def normalize_locale_id (locale_id : Option String) : String :=
  match locale_id with
  | none => DEFAULT_LOCALE
  | some s =>
    if s = "" then DEFAULT_LOCALE
    else
      let normalized := pyLower s
      if SUPPORTED_LOCALES.contains normalized then normalized else DEFAULT_LOCALE

/-- Function `get_locale` (the branch that takes an id; when the
argument is already a `Locale` instance the Python function returns it
unchanged, which the embedding does not need to model). -/
def get_locale (locale_id : Option String) : LocaleProfile :=
  ((LOCALE_CONFIGS.find? (fun p => p.1 == normalize_locale_id locale_id)).map
    (fun p => p.2)).getD localeEnUs

/-!
Embedding of `utils/regex_overlap.py`.  The function there takes a
compiled pattern and a replacement and repeatedly applies
`pattern.sub(replacement, ·)`; the embedding abstracts that one-pass
substitution as a function `sub : String → String`, so the theorems
quantify over every pattern and replacement.
-/
/-- Constant `MAX_ITERATIONS` from `utils/regex_overlap.py`. -/
def MAX_ITERATIONS : Nat := 50

/-- The `while` loop of `replace_with_overlap_handling`: the loop body
applies the substitution once while the result keeps changing.  The
source counts iterations upward against `MAX_ITERATIONS`; here `fuel`
is the number of iterations still allowed (so the loop guard
`iterations < MAX_ITERATIONS` is `fuel > 0`), which makes the
definition structurally recursive. -/
def overlapLoop (sub : String → String) : Nat → String → String → String
  | 0, result, _ => result
  | fuel + 1, result, previous_result =>
    if result ≠ previous_result then overlapLoop sub fuel (sub result) result
    else result

/-- Function `replace_with_overlap_handling` from
`utils/regex_overlap.py`: iterate the substitution until a fixed point
or the iteration ceiling, starting from `previous_result = ""`. -/
def replace_with_overlap_handling (sub : String → String) (text : String) : String :=
  overlapLoop sub MAX_ITERATIONS text ""

/-!
Python `str.replace`, on code-point lists.
-/
/-- Python `s.replace(old, rep, 1)`: replace the first occurrence of
`old` (for the empty `old`, Python inserts at the start, which the
`isPrefixOf` test reproduces). -/
def replaceFirstL (old rep : List Char) : List Char → List Char
  | [] => if old.isEmpty then rep else []
  | c :: t =>
    if old.isPrefixOf (c :: t) then rep ++ (c :: t).drop old.length
    else c :: replaceFirstL old rep t

/-- Scanning loop of Python `s.replace(old, rep)` for nonempty `old`
(every use in the embedded code has a fixed nonempty placeholder as
`old`): replace all non-overlapping occurrences left to right.  This
is also the action of `re.sub(re.escape(old), rep, s)` on a literal
pattern.  The fuel makes the definition structural; each step consumes
at least one character, so `s.length + 1` suffices. -/
def replaceAllGo (old rep : List Char) : Nat → List Char → List Char
  | 0, s => s
  | fuel + 1, s =>
    if old.isPrefixOf s ∧ old ≠ [] then
      rep ++ replaceAllGo old rep fuel (s.drop old.length)
    else
      match s with
      | [] => []
      | c :: t => c :: replaceAllGo old rep fuel t

/-- Python `s.replace(old, rep)` for nonempty `old`. -/
def replaceAllL (old rep : List Char) (s : List Char) : List Char :=
  replaceAllGo old rep (s.length + 1) s

/-- String wrapper of `replaceFirstL`. -/
def pyReplaceFirst (s old rep : String) : String :=
  String.mk (replaceFirstL old.data rep.data s.data)

/-- String wrapper of `replaceAllL`. -/
def pyReplaceAll (s old rep : String) : String :=
  String.mk (replaceAllL old.data rep.data s.data)

/-!
Embedding of `modules/punctuation/dash.py`.  Each `re.compile` call is
transcribed into the `RE` syntax; group numbers follow Python's
numbering of capturing parentheses.
-/
/-- Class `[{HYPHEN}{EN_DASH}{EM_DASH}]`. -/
def dashAllC : RE := reCls [ClsItem.one HYPHEN, ClsItem.one EN_DASH, ClsItem.one EM_DASH]

/-- Fragment `[{HYPHEN}{EN_DASH}{EM_DASH}]{1,3}`. -/
def dash13 : RE := RE.rep 1 (some 3) false dashAllC

/-- Fragment `[{SPACES}]*`. -/
def spacesStar : RE := reStar (reCls SPACES_C)

/-- Fragment `[{SPACES}]+`. -/
def spacesPlus : RE := rePlus (reCls SPACES_C)

/-- Fragment `[{SPACES}]?`. -/
def spacesOpt : RE := reOpt (reCls SPACES_C)

/-- The locale dash with its locale spacing, the replacement fragment
`{loc.dash_space_before}{loc.dash_char}{loc.dash_space_after}`. -/
def dash_replacement (loc : LocaleProfile) : List Char :=
  loc.dash_space_before.data ++ loc.dash_char.data ++ loc.dash_space_after.data

/-- Function `fix_dashes_between_words` from `dash.py`. -/
def fix_dashes_between_words (text : String) (loc : LocaleProfile) : String :=
  let pattern : Pat :=
    { ci := false
      re := reSeq
        [RE.grp 1 (reCls (ALL_CHARS ++ [DIGIT])),
         RE.grp 2 (RE.alt
           (reSeq [spacesStar,
             RE.rep 1 (some 3) false (reCls [ClsItem.one EN_DASH, ClsItem.one EM_DASH]),
             spacesStar])
           (reSeq [spacesPlus,
             RE.rep 1 (some 3) false (reCls [ClsItem.one HYPHEN]),
             spacesPlus])),
         RE.grp 3 (reCls (ALL_CHARS ++ [DIGIT]))] }
  pySubF pattern
    (fun _ cp => capsTpl cp 1 ++ dash_replacement loc ++ capsTpl cp 3) text

/-- Function `fix_dash_between_word_and_punctuation` from `dash.py`. -/
def fix_dash_between_word_and_punctuation (text : String) (loc : LocaleProfile) : String :=
  let pattern : Pat :=
    { ci := false
      re := reSeq
        [RE.grp 1 (reCls ALL_CHARS),
         RE.grp 2 spacesOpt,
         RE.grp 3 dash13,
         RE.grp 4 spacesOpt,
         RE.grp 5 (reAlts [reCls SENTENCE_PUNCTUATION, reChar '\n', reChar '\r'])] }
  pySubF pattern
    (fun _ cp => capsTpl cp 1 ++ loc.dash_space_before.data ++ loc.dash_char.data ++
      capsTpl cp 5) text

/-- Function `fix_dash_between_word_and_brackets` from `dash.py`
(six sequential substitutions). -/
def fix_dash_between_word_and_brackets (text : String) (loc : LocaleProfile) : String :=
  let dr := dash_replacement loc
  let pattern_within : Pat :=
    { ci := false
      re := reSeq
        [RE.grp 1 (reCls OPENING_BRACKETS), spacesStar,
         RE.grp 2 (rePlus dashAllC), spacesStar,
         RE.grp 3 (reCls CLOSING_BRACKETS)] }
  let text := pySubF pattern_within
    (fun _ cp => capsTpl cp 1 ++ capsTpl cp 2 ++ capsTpl cp 3) text
  let pattern_word_open : Pat :=
    { ci := false
      re := reSeq
        [RE.grp 1 (reCls ALL_CHARS), spacesStar, dash13, spacesStar,
         RE.grp 2 (reCls OPENING_BRACKETS)] }
  let text := pySubF pattern_word_open
    (fun _ cp => capsTpl cp 1 ++ dr ++ capsTpl cp 2) text
  let pattern_close_word : Pat :=
    { ci := false
      re := reSeq
        [RE.grp 1 (reCls CLOSING_BRACKETS), spacesStar, dash13, spacesStar,
         RE.grp 2 (reCls ALL_CHARS)] }
  let text := pySubF pattern_close_word
    (fun _ cp => capsTpl cp 1 ++ dr ++ capsTpl cp 2) text
  let pattern_word_close : Pat :=
    { ci := false
      re := reSeq
        [RE.grp 1 (reCls ALL_CHARS), spacesStar, dash13, spacesStar,
         RE.grp 2 (reCls CLOSING_BRACKETS)] }
  let text := pySubF pattern_word_close
    (fun _ cp => capsTpl cp 1 ++ dr ++ capsTpl cp 2) text
  let pattern_open_word : Pat :=
    { ci := false
      re := reSeq
        [RE.grp 1 (reCls OPENING_BRACKETS), spacesStar, dash13, spacesStar,
         RE.grp 2 (reCls ALL_CHARS)] }
  let text := pySubF pattern_open_word
    (fun _ cp => capsTpl cp 1 ++ dr ++ capsTpl cp 2) text
  let pattern_close_open : Pat :=
    { ci := false
      re := reSeq
        [RE.grp 1 (reCls CLOSING_BRACKETS), spacesStar, dashAllC, spacesStar,
         RE.grp 2 (reCls OPENING_BRACKETS)] }
  pySubF pattern_close_open
    (fun _ cp => capsTpl cp 1 ++ dr ++ capsTpl cp 2) text

/-- The placeholder literal `{{typopo__endash}}` from
`fix_dash_between_cardinal_numbers`. -/
def TYPOPO_ENDASH : String := "\x7b\x7btypopo__endash\x7d\x7d"

/-- Function `fix_dash_between_cardinal_numbers` from `dash.py`:
two-pass algorithm with the overlap-safe rewriter and the en-dash
placeholder. -/
def fix_dash_between_cardinal_numbers (text : String) : String :=
  let pattern : Pat :=
    { ci := false
      re := reSeq
        [RE.grp 1 (reCls [DIGIT]),
         RE.grp 2 (reSeq [spacesOpt, dash13, spacesOpt]),
         RE.grp 3 (reCls [DIGIT])] }
  let text := replace_with_overlap_handling
    (pySubF pattern (fun _ cp => capsTpl cp 1 ++ TYPOPO_ENDASH.data ++ capsTpl cp 3)) text
  pyReplaceAll text TYPOPO_ENDASH (String.mk [EN_DASH])

/-- Function `fix_dash_between_percentage_range` from `dash.py`. -/
def fix_dash_between_percentage_range (text : String) : String :=
  let pattern : Pat :=
    { ci := false
      re := reSeq
        [RE.grp 1 (reCls [ClsItem.one PERCENT, ClsItem.one PERMILLE, ClsItem.one PERMYRIAD]),
         RE.grp 2 (reSeq [spacesOpt, dash13, spacesOpt]),
         RE.grp 3 (reCls [DIGIT])] }
  pySubF pattern
    (fun _ cp => capsTpl cp 1 ++ [EN_DASH] ++ capsTpl cp 3) text

/-- Transcription of the ordinal-indicator regex fragments stored in
`LOCALE_CONFIGS` (`"st|nd|rd|th"` for `en-us`, `"\."` for the other
locales). -/
def ordinalIndicatorRE (fragment : String) : RE :=
  if fragment = "st|nd|rd|th" then reAlts [reStr "st", reStr "nd", reStr "rd", reStr "th"]
  else reChar '.'

/-- Function `fix_dash_between_ordinal_numbers` from `dash.py`
(compiled with `re.IGNORECASE`). -/
def fix_dash_between_ordinal_numbers (text : String) (loc : LocaleProfile) : String :=
  let ordinal := ordinalIndicatorRE loc.ordinal_indicator
  let pattern : Pat :=
    { ci := true
      re := reSeq
        [RE.grp 1 (reCls [DIGIT]),
         RE.grp 2 ordinal,
         RE.grp 3 (reSeq [spacesOpt, dash13, spacesOpt]),
         RE.grp 4 (reCls [DIGIT]),
         RE.grp 5 ordinal] }
  pySubF pattern
    (fun _ cp => capsTpl cp 1 ++ capsTpl cp 2 ++ [EN_DASH] ++ capsTpl cp 4 ++ capsTpl cp 5)
    text

/-- Function `fix_dash` from `dash.py`: the six dash rules in source
order. -/
def fix_dash (text : String) (loc : LocaleProfile) : String :=
  let text := fix_dashes_between_words text loc
  let text := fix_dash_between_word_and_punctuation text loc
  let text := fix_dash_between_word_and_brackets text loc
  let text := fix_dash_between_cardinal_numbers text
  let text := fix_dash_between_percentage_range text
  fix_dash_between_ordinal_numbers text loc

/-- Constant `PLUS`. -/
def PLUS : Char := '+'

/-- Constant `MINUS` (U+2212, the minus sign). -/
def MINUS : Char := '−'

/-- Constant `COPYRIGHT` (U+00A9). -/
def COPYRIGHT : Char := '©'

/-- Constant `REGISTERED_TRADEMARK` (U+00AE). -/
def REGISTERED_TRADEMARK : Char := '®'

/-- Constant `SOUND_RECORDING_COPYRIGHT` (U+2117). -/
def SOUND_RECORDING_COPYRIGHT : Char := '℗'

/-!
Decimal rendering of a natural number, the model of Python's
`f"{index}"` used to build numbered placeholders.  The fuel argument
keeps the recursion structural; `natToStr` supplies `n + 1`, which
exceeds the number of digits.
-/
/-- Digit characters of `n` in base ten, most significant first. -/
def natDigits : Nat → Nat → List Char
  | 0, _ => []
  | fuel + 1, n =>
    if n < 10 then [Char.ofNat (48 + n)]
    else natDigits fuel (n / 10) ++ [Char.ofNat (48 + n % 10)]

/-- Python `f"{n}"` for a natural number. -/
def natToStr (n : Nat) : String := String.mk (natDigits (n + 1) n)

/-!
Embedding of `utils/markdown.py`: extraction and restoration of
markdown code ticks.  The extraction uses `re.sub` with a stateful
replacement callback that appends each matched block to a list; the
engine below threads that state through the substitution scan.
-/
/-- Stateful variant of the `re.sub` scanning loop: the replacement
callback receives and returns the accumulated code-block list. -/
def subLoopSt (p : Pat)
    (repl : List String → List Char → Caps → List String × List Char) :
    Nat → List String → Option Char → List Char → List String × List Char
  | 0, st, _, todo => (st, todo)
  | fuel + 1, st, prev, todo =>
    match matchAt p prev todo with
    | some (n + 1, cp) =>
      let m := todo.take (n + 1)
      let r := repl st m cp
      let rec2 := subLoopSt p repl fuel r.1 m.getLast? (todo.drop (n + 1))
      (rec2.1, r.2 ++ rec2.2)
    | some (0, cp) =>
      match todo with
      | [] => let r := repl st [] cp; (r.1, r.2)
      | c :: t =>
        let r := repl st [] cp
        let rec2 := subLoopSt p repl fuel r.1 (some c) t
        (rec2.1, r.2 ++ c :: rec2.2)
    | none =>
      match todo with
      | [] => (st, [])
      | c :: t =>
        let rec2 := subLoopSt p repl fuel st (some c) t
        (rec2.1, c :: rec2.2)

/-- Python `pattern.sub` with a stateful replacement callback. -/
def pySubSt (p : Pat)
    (repl : List String → List Char → Caps → List String × List Char)
    (st : List String) (text : String) : String × List String :=
  let r := subLoopSt p repl (text.data.length + 1) st none text.data
  (String.mk r.2, r.1)

/-- Constant `_MARKDOWN_PLACEHOLDER_PREFIX` from `utils/markdown.py`. -/
def MARKDOWN_PLACEHOLDER_PREFIX : String := "\x00TYPOPO_MD_"

/-- Constant `_MARKDOWN_PLACEHOLDER_SUFFIX` from `utils/markdown.py`. -/
def MARKDOWN_PLACEHOLDER_SUFFIX : String := "_DM_OPYPOT\x00"

/-- Helper `make_placeholder` from `utils/markdown.py`. -/
def md_make_placeholder (index : Nat) : String :=
  MARKDOWN_PLACEHOLDER_PREFIX ++ natToStr index ++ MARKDOWN_PLACEHOLDER_SUFFIX

/-- Helper `extract_block` from `utils/markdown.py`: append the whole
match to the block list and emit the indexed placeholder. -/
def md_extract_block (blocks : List String) (m : List Char) (_ : Caps) :
    List String × List Char :=
  (blocks ++ [String.mk m], (md_make_placeholder blocks.length).data)

/-- Function `identify_markdown_code_ticks` from `utils/markdown.py`:
fenced blocks, double backticks, then single backticks are extracted
into placeholders (`re.DOTALL` on the first two patterns). -/
def identify_markdown_code_ticks (text : String) (keep_markdown_code_blocks : Bool) :
    String × List String :=
  if !keep_markdown_code_blocks then (text, [])
  else
    let pFenced : Pat :=
      { ci := false
        re := reSeq [reStr "\x60\x60\x60", reStarL (RE.dot true), reStr "\x60\x60\x60"] }
    let r1 := pySubSt pFenced md_extract_block [] text
    let pDouble : Pat :=
      { ci := false
        re := reSeq [reStr "\x60\x60", reStarL (RE.dot true), reStr "\x60\x60"] }
    let r2 := pySubSt pDouble md_extract_block r1.2 r1.1
    let pSingle : Pat :=
      { ci := false
        re := reSeq [reChar '\x60',
          rePlus (reNCls [ClsItem.one '\x60', ClsItem.one '\n']), reChar '\x60'] }
    let r3 := pySubSt pSingle md_extract_block r2.2 r2.1
    (r3.1, r3.2)

/-- Restoration loop of `place_markdown_code_ticks`. -/
def placeMdGo : Nat → List String → String → String
  | _, [], text => text
  | i, b :: bs, text => placeMdGo (i + 1) bs (pyReplaceAll text (md_make_placeholder i) b)

/-- Function `place_markdown_code_ticks` from `utils/markdown.py`. -/
def place_markdown_code_ticks (text : String) (code_blocks : List String)
    (keep_markdown_code_blocks : Bool) : String :=
  if !keep_markdown_code_blocks then text
  else placeMdGo 0 code_blocks text

/-!
The one function of `modules/whitespace/nbsp.py` that the double-quote
module calls: `add_nbsp_after_preposition`.
-/
/-- Function `add_nbsp_after_preposition` from `nbsp.py`: single-letter
lowercase prepositions (with the overlap-safe rewriter), uppercase
sentence starters, and the English `I`. -/
def add_nbsp_after_preposition (text : String) (loc : LocaleProfile) : String :=
  let pattern_lower : Pat :=
    { ci := false
      re := reSeq
        [RE.grp 1 (reAlts [RE.bol false, reCls [ClsItem.ofStr SPACE],
          reNCls (ALL_CHARS ++ [DIGIT, ClsItem.one APOSTROPHE, ClsItem.one PLUS,
            ClsItem.one MINUS, ClsItem.one HYPHEN])]),
         RE.grp 2 (reCls LOWERCASE_CHARS),
         RE.grp 3 (reCls [ClsItem.ofStr SPACE])] }
  let text := replace_with_overlap_handling
    (pySubF pattern_lower (fun _ cp => capsTpl cp 1 ++ capsTpl cp 2 ++ NBSP.data)) text
  let pattern_upper : Pat :=
    { ci := false
      re := reSeq
        [RE.grp 1 (reAlts [RE.bol false,
          reCls (SENTENCE_PUNCTUATION ++ [ClsItem.one ELLIPSIS, ClsItem.one COPYRIGHT,
            ClsItem.one REGISTERED_TRADEMARK, ClsItem.one SOUND_RECORDING_COPYRIGHT])]),
         RE.grp 2 spacesOpt,
         RE.grp 3 (reCls UPPERCASE_CHARS),
         RE.grp 4 (reCls SPACES_C)] }
  let text := pySubF pattern_upper
    (fun _ cp => capsTpl cp 1 ++ capsTpl cp 2 ++ capsTpl cp 3 ++ NBSP.data) text
  if loc.locale_id = "en-us" then
    let pattern_i : Pat :=
      { ci := false
        re := reSeq
          [RE.grp 1 (reAlts [RE.bol false, reCls SPACES_C]),
           RE.grp 2 (reChar 'I'),
           RE.grp 3 (reCls SPACES_C)] }
    pySubF pattern_i (fun _ cp => capsTpl cp 1 ++ capsTpl cp 2 ++ NBSP.data) text
  else text

/-!
Embedding of `modules/punctuation/double_quotes.py`.
-/
/-- The `DOUBLE_QUOTE_ADEPTS` alternation from `double_quotes.py`:
straight and curly double quotes, low-9 quotes, guillemets, the double
prime, two-plus commas, two-plus single low-9 quotes, and two-plus
single-quote-like marks. -/
def DOUBLE_QUOTE_ADEPTS : RE :=
  reAlts
    [reChar '"',
     reChar '“',
     reChar '”',
     reChar '„',
     reChar '«',
     reChar '»',
     reChar '″',
     RE.rep 2 none false (reChar ','),
     RE.rep 2 none false (reChar '‚'),
     RE.rep 2 none false (reCls [ClsItem.one '\x27', ClsItem.one '‘',
       ClsItem.one '’', ClsItem.one '‹', ClsItem.one '›',
       ClsItem.one '′', ClsItem.one '´', ClsItem.one '\x60'])]

/-- Placeholder literal `{{typopo__double-prime}}`. -/
def TYPOPO_DOUBLE_PRIME : String := "\x7b\x7btypopo__double-prime\x7d\x7d"

/-- Placeholder literal `{{typopo__ldq}}`. -/
def TYPOPO_LDQ : String := "\x7b\x7btypopo__ldq\x7d\x7d"

/-- Placeholder literal `{{typopo__rdq}}`. -/
def TYPOPO_RDQ : String := "\x7b\x7btypopo__rdq\x7d\x7d"

/-- Placeholder literal `{{typopo__ldq--unpaired}}`. -/
def TYPOPO_LDQ_UNPAIRED : String := "\x7b\x7btypopo__ldq--unpaired\x7d\x7d"

/-- Placeholder literal `{{typopo__rdq--unpaired}}`. -/
def TYPOPO_RDQ_UNPAIRED : String := "\x7b\x7btypopo__rdq--unpaired\x7d\x7d"

/-- Function `remove_extra_punctuation_before_quotes` from
`double_quotes.py`. -/
def remove_extra_punctuation_before_quotes (text : String) (_loc : LocaleProfile) : String :=
  let pattern : Pat :=
    { ci := false
      re := reSeq
        [RE.grp 1 (reNCls [ClsItem.ofStr ROMAN_NUMERALS]),
         RE.grp 2 (reCls SENTENCE_PUNCTUATION),
         RE.grp 3 (reCls SENTENCE_PAUSE_PUNCTUATION),
         RE.grp 4 DOUBLE_QUOTE_ADEPTS] }
  pySubF pattern
    (fun _ cp => capsTpl cp 1 ++ capsTpl cp 2 ++ capsTpl cp 4) text

/-- Function `remove_extra_punctuation_after_quotes` from
`double_quotes.py`. -/
def remove_extra_punctuation_after_quotes (text : String) (_loc : LocaleProfile) : String :=
  let pattern : Pat :=
    { ci := false
      re := reSeq
        [RE.grp 1 (reNCls [ClsItem.ofStr ROMAN_NUMERALS]),
         RE.grp 2 (reCls SENTENCE_PUNCTUATION),
         RE.grp 3 DOUBLE_QUOTE_ADEPTS,
         RE.grp 4 (reCls SENTENCE_PUNCTUATION)] }
  pySubF pattern
    (fun _ cp => capsTpl cp 1 ++ capsTpl cp 2 ++ capsTpl cp 3) text

/-- Function `identify_double_primes` from `double_quotes.py`. -/
def identify_double_primes (text : String) (_loc : LocaleProfile) : String :=
  let pattern1 : Pat :=
    { ci := false
      re := reSeq
        [RE.grp 1 (RE.alt (reNCls [ClsItem.range '0' '9']) (RE.bol false)),
         RE.grp 2 DOUBLE_QUOTE_ADEPTS,
         RE.grp 3 (rePlusL (RE.dot false)),
         RE.grp 4 (rePlus (reCls [DIGIT])),
         RE.grp 5 DOUBLE_QUOTE_ADEPTS,
         RE.grp 6 (reCls (TERMINAL_PUNCTUATION ++ [ClsItem.one ELLIPSIS]))] }
  let text := pySubF pattern1
    (fun _ cp => capsTpl cp 1 ++ capsTpl cp 2 ++ capsTpl cp 3 ++ capsTpl cp 4 ++
      capsTpl cp 6 ++ capsTpl cp 5) text
  let pattern2 : Pat :=
    { ci := false
      re := reSeq
        [RE.grp 1 (reSeq [RE.wordB true, RE.rep 1 (some 3) false (reCls [DIGIT])]),
         RE.grp 2 spacesOpt,
         RE.grp 3 DOUBLE_QUOTE_ADEPTS] }
  pySubF pattern2
    (fun _ cp => capsTpl cp 1 ++ capsTpl cp 2 ++ TYPOPO_DOUBLE_PRIME.data) text

/-- Function `identify_double_quote_pairs` from `double_quotes.py`. -/
def identify_double_quote_pairs (text : String) (_loc : LocaleProfile) : String :=
  let pattern1 : Pat :=
    { ci := false
      re := reSeq
        [RE.grp 1 DOUBLE_QUOTE_ADEPTS,
         RE.grp 2 (rePlus (reCls [DIGIT])),
         RE.grp 3 (reStr TYPOPO_DOUBLE_PRIME)] }
  let text := pySubF pattern1
    (fun _ cp => TYPOPO_LDQ.data ++ capsTpl cp 2 ++ TYPOPO_RDQ.data) text
  let pattern2 : Pat :=
    { ci := false
      re := reSeq
        [RE.grp 1 DOUBLE_QUOTE_ADEPTS,
         RE.grp 2 (reStarL (RE.dot false)),
         RE.grp 3 DOUBLE_QUOTE_ADEPTS] }
  pySubF pattern2
    (fun _ cp => TYPOPO_LDQ.data ++ capsTpl cp 2 ++ TYPOPO_RDQ.data) text

/-- Function `identify_unpaired_left_double_quote` from
`double_quotes.py`. -/
def identify_unpaired_left_double_quote (text : String) (_loc : LocaleProfile) : String :=
  let pattern : Pat :=
    { ci := false
      re := reSeq
        [RE.grp 1 DOUBLE_QUOTE_ADEPTS,
         RE.grp 2 (reCls ([ClsItem.range '0' '9'] ++ LOWERCASE_CHARS ++ UPPERCASE_CHARS))] }
  pySubF pattern
    (fun _ cp => TYPOPO_LDQ_UNPAIRED.data ++ capsTpl cp 2) text

/-- Function `identify_unpaired_right_double_quote` from
`double_quotes.py`. -/
def identify_unpaired_right_double_quote (text : String) (_loc : LocaleProfile) : String :=
  let pattern : Pat :=
    { ci := false
      re := reSeq
        [RE.grp 1 (reCls (LOWERCASE_CHARS ++ UPPERCASE_CHARS ++ SENTENCE_PUNCTUATION ++
          [ClsItem.one ELLIPSIS])),
         RE.grp 2 DOUBLE_QUOTE_ADEPTS] }
  pySubF pattern
    (fun _ cp => capsTpl cp 1 ++ TYPOPO_RDQ_UNPAIRED.data) text

/-- Function `remove_unidentified_double_quote` from
`double_quotes.py`. -/
def remove_unidentified_double_quote (text : String) (_loc : LocaleProfile) : String :=
  let pattern : Pat :=
    { ci := false
      re := reSeq
        [RE.grp 1 (reCls SPACES_C),
         RE.grp 2 DOUBLE_QUOTE_ADEPTS,
         RE.grp 3 (reCls SPACES_C)] }
  pySubF pattern (fun _ cp => capsTpl cp 1) text

/-- Function `replace_double_prime_with_double_quote` from
`double_quotes.py`. -/
def replace_double_prime_with_double_quote (text : String) (_loc : LocaleProfile) : String :=
  let pattern1 : Pat :=
    { ci := false
      re := reSeq
        [RE.grp 1 (reStr TYPOPO_LDQ_UNPAIRED),
         RE.grp 2 (reStarL (RE.dot false)),
         RE.grp 3 (reStr TYPOPO_DOUBLE_PRIME)] }
  let text := pySubF pattern1
    (fun _ cp => TYPOPO_LDQ.data ++ capsTpl cp 2 ++ TYPOPO_RDQ.data) text
  let pattern2 : Pat :=
    { ci := false
      re := reSeq
        [RE.grp 1 (reStr TYPOPO_DOUBLE_PRIME),
         RE.grp 2 (reStarL (RE.dot false)),
         RE.grp 3 (reStr TYPOPO_RDQ_UNPAIRED)] }
  pySubF pattern2
    (fun _ cp => TYPOPO_LDQ.data ++ capsTpl cp 2 ++ TYPOPO_RDQ.data) text

/-- Function `place_locale_double_quotes` from `double_quotes.py`. -/
def place_locale_double_quotes (text : String) (loc : LocaleProfile) : String :=
  let text := pyReplaceAll text TYPOPO_DOUBLE_PRIME (String.mk [DOUBLE_PRIME])
  let pLeft : Pat :=
    { ci := false
      re := RE.grp 1 (RE.alt (reStr TYPOPO_LDQ) (reStr TYPOPO_LDQ_UNPAIRED)) }
  let text := pySubF pLeft (fun _ _ => loc.double_quote_open.data) text
  let pRight : Pat :=
    { ci := false
      re := RE.grp 1 (RE.alt (reStr TYPOPO_RDQ) (reStr TYPOPO_RDQ_UNPAIRED)) }
  pySubF pRight (fun _ _ => loc.double_quote_close.data) text

/-- Function `remove_extra_spaces_around_quotes` from
`double_quotes.py`. -/
def remove_extra_spaces_around_quotes (text : String) (loc : LocaleProfile) : String :=
  let pattern1 : Pat :=
    { ci := false
      re := reSeq [RE.grp 1 (reStr loc.double_quote_open), RE.grp 2 (reCls SPACES_C)] }
  let text := pySubF pattern1 (fun _ cp => capsTpl cp 1) text
  let pattern2 : Pat :=
    { ci := false
      re := reSeq [RE.grp 1 (reCls SPACES_C), RE.grp 2 (reStr loc.double_quote_close)] }
  let text := pySubF pattern2 (fun _ cp => capsTpl cp 2) text
  let pattern3 : Pat :=
    { ci := false
      re := reSeq [RE.grp 1 (reCls SPACES_C), RE.grp 2 (reStr (String.mk [DOUBLE_PRIME]))] }
  pySubF pattern3 (fun _ cp => capsTpl cp 2) text

/-- Function `add_space_before_left_double_quote` from
`double_quotes.py` (also applies the nbsp-after-preposition rule). -/
def add_space_before_left_double_quote (text : String) (loc : LocaleProfile) : String :=
  let pattern : Pat :=
    { ci := false
      re := reSeq
        [RE.grp 1 (reCls (SENTENCE_PUNCTUATION ++ ALL_CHARS)),
         RE.grp 2 (reCls [ClsItem.ofStr loc.double_quote_open])] }
  let text := pySubF pattern
    (fun _ cp => capsTpl cp 1 ++ " ".data ++ capsTpl cp 2) text
  add_nbsp_after_preposition text loc

/-- Function `add_space_after_right_double_quote` from
`double_quotes.py`. -/
def add_space_after_right_double_quote (text : String) (loc : LocaleProfile) : String :=
  let pattern : Pat :=
    { ci := false
      re := reSeq
        [RE.grp 1 (reCls [ClsItem.ofStr loc.double_quote_close]),
         RE.grp 2 (reCls ALL_CHARS)] }
  pySubF pattern
    (fun _ cp => capsTpl cp 1 ++ " ".data ++ capsTpl cp 2) text

/-- Function `swap_quotes_and_terminal_punctuation` from
`double_quotes.py`: five substitutions moving terminal punctuation
relative to the locale's double quotes. -/
def swap_quotes_and_terminal_punctuation (text : String) (loc : LocaleProfile) : String :=
  let lq := loc.double_quote_open
  let rq := loc.double_quote_close
  let pattern1 : Pat :=
    { ci := false
      re := reSeq
        [RE.grp 1 (reNCls SENTENCE_PUNCTUATION),
         RE.grp 2 (reCls SPACES_C),
         RE.grp 3 (reStr lq),
         RE.grp 4 (rePlusL (reNCls [ClsItem.ofStr rq])),
         RE.grp 5 (reNCls ([ClsItem.ofStr ROMAN_NUMERALS] ++ CLOSING_BRACKETS)),
         RE.grp 6 (reCls (TERMINAL_PUNCTUATION ++ [ClsItem.one ELLIPSIS])),
         RE.grp 7 (reStr rq)] }
  let text := pySubF pattern1
    (fun _ cp => capsTpl cp 1 ++ capsTpl cp 2 ++ capsTpl cp 3 ++ capsTpl cp 4 ++
      capsTpl cp 5 ++ capsTpl cp 7 ++ capsTpl cp 6) text
  let pattern2 : Pat :=
    { ci := false
      re := reSeq
        [RE.grp 1 (reNCls SENTENCE_PUNCTUATION),
         RE.grp 2 (reCls SPACES_C),
         RE.grp 3 (reStr lq),
         RE.grp 4 (rePlusL (RE.dot false)),
         RE.grp 5 (reNCls [ClsItem.ofStr ROMAN_NUMERALS]),
         RE.grp 6 (reStr rq),
         RE.grp 7 (reCls (TERMINAL_PUNCTUATION ++ [ClsItem.one ELLIPSIS])),
         RE.grp 8 (reCls SPACES_C),
         RE.grp 9 (reCls LOWERCASE_CHARS)] }
  let text := pySubF pattern2
    (fun _ cp => capsTpl cp 1 ++ capsTpl cp 2 ++ capsTpl cp 3 ++ capsTpl cp 4 ++
      capsTpl cp 5 ++ capsTpl cp 7 ++ capsTpl cp 6 ++ capsTpl cp 8 ++ capsTpl cp 9) text
  let pattern3 : Pat :=
    { ci := false
      re := reSeq
        [RE.grp 1 (reSeq [RE.bol true, reStr lq,
           rePlusL (reNCls [ClsItem.ofStr rq]),
           reNCls [ClsItem.ofStr ROMAN_NUMERALS]]),
         RE.grp 2 (reStr rq),
         RE.grp 3 (reCls (TERMINAL_PUNCTUATION ++ [ClsItem.one ELLIPSIS])),
         RE.grp 4 (RE.wordB false)] }
  let text := pySubF pattern3
    (fun _ cp => capsTpl cp 1 ++ capsTpl cp 3 ++ capsTpl cp 2 ++ capsTpl cp 4) text
  let pattern4 : Pat :=
    { ci := false
      re := reSeq
        [RE.grp 1 (reSeq [reCls SENTENCE_PUNCTUATION, reCls SPACES_C, reStr lq,
           rePlusL (reNCls [ClsItem.ofStr rq]),
           reNCls [ClsItem.ofStr ROMAN_NUMERALS]]),
         RE.grp 2 (reStr rq),
         RE.grp 3 (reCls (TERMINAL_PUNCTUATION ++ [ClsItem.one ELLIPSIS])),
         RE.grp 4 (RE.wordB false)] }
  let text := pySubF pattern4
    (fun _ cp => capsTpl cp 1 ++ capsTpl cp 3 ++ capsTpl cp 2 ++ capsTpl cp 4) text
  let pattern5 : Pat :=
    { ci := false
      re := reSeq
        [RE.grp 1 (reSeq [reCls SENTENCE_PUNCTUATION, reCls [ClsItem.ofStr rq],
           reCls SPACES_C, reStr lq,
           rePlusL (reNCls [ClsItem.ofStr rq]),
           reNCls [ClsItem.ofStr ROMAN_NUMERALS]]),
         RE.grp 2 (reStr rq),
         RE.grp 3 (reCls (TERMINAL_PUNCTUATION ++ [ClsItem.one ELLIPSIS])),
         RE.grp 4 (RE.wordB false)] }
  pySubF pattern5
    (fun _ cp => capsTpl cp 1 ++ capsTpl cp 3 ++ capsTpl cp 2 ++ capsTpl cp 4) text

/-- Function `fix_direct_speech_intro` from `double_quotes.py`. -/
def fix_direct_speech_intro (text : String) (loc : LocaleProfile) : String :=
  let lq := loc.double_quote_open
  let rq := loc.double_quote_close
  let direct_speech_intro : String := if loc.locale_id = "en-us" then "," else ":"
  let introAdepts : List ClsItem :=
    [ClsItem.one ',', ClsItem.one ':', ClsItem.one ';']
  let dashes : List ClsItem :=
    [ClsItem.one HYPHEN, ClsItem.one EN_DASH, ClsItem.one EM_DASH]
  let quoted : RE := reSeq [reCls [ClsItem.ofStr lq], rePlusL (RE.dot false),
    reCls [ClsItem.ofStr rq]]
  let pattern1 : Pat :=
    { ci := false
      re := reSeq
        [RE.grp 1 (reCls ALL_CHARS),
         reOpt (reCls introAdepts),
         spacesStar, reCls dashes, spacesStar,
         RE.grp 2 quoted] }
  let text := pySubF pattern1
    (fun _ cp => capsTpl cp 1 ++ direct_speech_intro.data ++ " ".data ++ capsTpl cp 2) text
  let pattern2 : Pat :=
    { ci := false
      re := reSeq
        [RE.grp 1 (reCls ALL_CHARS),
         reCls introAdepts,
         spacesStar,
         RE.grp 2 quoted] }
  let text := pySubF pattern2
    (fun _ cp => capsTpl cp 1 ++ direct_speech_intro.data ++ " ".data ++ capsTpl cp 2) text
  let pattern3 : Pat :=
    { ci := false
      re := reSeq
        [RE.grp 1 quoted,
         spacesStar, reCls dashes, spacesStar,
         RE.grp 2 (reCls ALL_CHARS)] }
  let text := pySubF pattern3
    (fun _ cp => capsTpl cp 1 ++ " ".data ++ capsTpl cp 2) text
  let pattern4 : Pat :=
    { ci := false
      re := reSeq
        [RE.bol false, spacesStar, reCls dashes, spacesStar,
         RE.grp 1 quoted] }
  let text := pySubF pattern4 (fun _ cp => capsTpl cp 1) text
  let pattern5 : Pat :=
    { ci := false
      re := reSeq
        [RE.grp 1 (reCls (TERMINAL_PUNCTUATION ++ [ClsItem.one ELLIPSIS])),
         spacesPlus, reCls dashes, spacesStar,
         RE.grp 2 quoted] }
  pySubF pattern5
    (fun _ cp => capsTpl cp 1 ++ " ".data ++ capsTpl cp 2) text

/-- Function `fix_double_quotes_and_primes` from `double_quotes.py`
(the pipeline alias `fix_double_quotes`); the orchestrator calls it
with `keep_markdown_code_blocks = False`. -/
def fix_double_quotes_and_primes (text : String) (loc : LocaleProfile)
    (keep_markdown_code_blocks : Bool) : String :=
  let r0 := identify_markdown_code_ticks text keep_markdown_code_blocks
  let text := r0.1
  let markdown_blocks := r0.2
  let text := remove_extra_punctuation_before_quotes text loc
  let text := remove_extra_punctuation_after_quotes text loc
  let text := identify_double_primes text loc
  let text := identify_double_quote_pairs text loc
  let text := identify_unpaired_left_double_quote text loc
  let text := identify_unpaired_right_double_quote text loc
  let text := remove_unidentified_double_quote text loc
  let text := replace_double_prime_with_double_quote text loc
  let text := place_locale_double_quotes text loc
  let text := place_markdown_code_ticks text markdown_blocks keep_markdown_code_blocks
  let text := remove_extra_spaces_around_quotes text loc
  let text := add_space_before_left_double_quote text loc
  let text := add_space_after_right_double_quote text loc
  let text := fix_direct_speech_intro text loc
  swap_quotes_and_terminal_punctuation text loc

/-- The pipeline entry `fix_double_quotes` (alias with the default
`keep_markdown_code_blocks=False`). -/
def fix_double_quotes (text : String) (loc : LocaleProfile) : String :=
  fix_double_quotes_and_primes text loc false

/-!
Embedding of `modules/punctuation/single_quotes.py`.
-/
/-- The `SINGLE_QUOTE_ADEPTS` alternation from `single_quotes.py`. -/
def SINGLE_QUOTE_ADEPTS : RE :=
  reAlts
    [reChar '‚',
     reChar '\x27',
     reChar '‘',
     reChar '’',
     reChar 'ʼ',
     reChar '‛',
     reChar '´',
     reChar '\x60',
     reChar '′',
     reChar '‹',
     reChar '›']

/-- Placeholder literal `{{typopo__apostrophe}}`. -/
def TYPOPO_APOSTROPHE : String := "\x7b\x7btypopo__apostrophe\x7d\x7d"

/-- Placeholder literal `{{typopo__single-prime}}`. -/
def TYPOPO_SINGLE_PRIME : String := "\x7b\x7btypopo__single-prime\x7d\x7d"

/-- Placeholder literal `{{typopo__lsq}}`. -/
def TYPOPO_LSQ : String := "\x7b\x7btypopo__lsq\x7d\x7d"

/-- Placeholder literal `{{typopo__rsq}}`. -/
def TYPOPO_RSQ : String := "\x7b\x7btypopo__rsq\x7d\x7d"

/-- Placeholder literal `{{typopo__lsq--unpaired}}`. -/
def TYPOPO_LSQ_UNPAIRED : String := "\x7b\x7btypopo__lsq--unpaired\x7d\x7d"

/-- Placeholder literal `{{typopo__rsq--unpaired}}`. -/
def TYPOPO_RSQ_UNPAIRED : String := "\x7b\x7btypopo__rsq--unpaired\x7d\x7d"

/-- Placeholder literal `{{typopo__markdown_syntax_highlight}}`. -/
def TYPOPO_MD_SYNTAX_HIGHLIGHT : String := "\x7b\x7btypopo__markdown_syntax_highlight\x7d\x7d"

/-- The fixed word-pair list of `identify_contracted_and`. -/
def common_contractions : List (String × String) :=
  [("dead", "buried"), ("drill", "bass"), ("drum", "bass"), ("rock", "roll"),
   ("pick", "mix"), ("fish", "chips"), ("salt", "shake"), ("mac", "cheese"),
   ("pork", "beans"), ("drag", "drop"), ("rake", "scrape"), ("hook", "kill")]

/-- Function `identify_contracted_and` from `single_quotes.py`: for
each known word pair, rewrite `'n'` between them to apostrophe
placeholders with non-breaking spaces (`re.IGNORECASE`). -/
def identify_contracted_and (text : String) (_loc : LocaleProfile) : String :=
  common_contractions.foldl
    (fun text pr =>
      let pattern : Pat :=
        { ci := true
          re := reSeq
            [RE.grp 1 (reStr pr.1),
             RE.grp 2 spacesOpt,
             RE.grp 3 SINGLE_QUOTE_ADEPTS,
             RE.grp 4 (reChar 'n'),
             RE.grp 5 SINGLE_QUOTE_ADEPTS,
             RE.grp 6 spacesOpt,
             RE.grp 7 (reStr pr.2)] }
      pySubF pattern
        (fun _ cp => capsTpl cp 1 ++ NBSP.data ++ TYPOPO_APOSTROPHE.data ++
          capsTpl cp 4 ++ TYPOPO_APOSTROPHE.data ++ NBSP.data ++ capsTpl cp 7) text)
    text

/-- The `contracted_words` alternation of
`identify_contracted_beginnings`. -/
def contracted_words : List String :=
  ["cause", "em", "mid", "midst", "mongst", "prentice", "round", "sblood",
   "sdeath", "sfoot", "sheart", "shun", "slid", "slife", "slight", "snails",
   "strewth", "til", "tis", "twas", "tween", "twere", "twill", "twixt", "twould"]

/-- Function `identify_contracted_beginnings` from `single_quotes.py`
(`re.IGNORECASE`). -/
def identify_contracted_beginnings (text : String) (_loc : LocaleProfile) : String :=
  let pattern : Pat :=
    { ci := true
      re := reSeq
        [RE.grp 1 SINGLE_QUOTE_ADEPTS,
         RE.grp 2 (reAlts (contracted_words.map reStr))] }
  pySubF pattern
    (fun _ cp => TYPOPO_APOSTROPHE.data ++ capsTpl cp 2) text

/-- Function `identify_contracted_ends` from `single_quotes.py`
(`re.IGNORECASE`; the source pattern is `(\Bin)({adepts})`). -/
def identify_contracted_ends (text : String) (_loc : LocaleProfile) : String :=
  let pattern : Pat :=
    { ci := true
      re := reSeq
        [RE.grp 1 (reSeq [RE.wordB false, reStr "in"]),
         RE.grp 2 SINGLE_QUOTE_ADEPTS] }
  pySubF pattern
    (fun _ cp => capsTpl cp 1 ++ TYPOPO_APOSTROPHE.data) text

/-- Function `identify_in_word_contractions` from `single_quotes.py`. -/
def identify_in_word_contractions (text : String) (_loc : LocaleProfile) : String :=
  let pattern : Pat :=
    { ci := false
      re := reSeq
        [RE.grp 1 (reCls ([DIGIT] ++ ALL_CHARS)),
         RE.rep 1 none false (RE.grp 2 SINGLE_QUOTE_ADEPTS),
         RE.grp 3 (reCls ALL_CHARS)] }
  pySubF pattern
    (fun _ cp => capsTpl cp 1 ++ TYPOPO_APOSTROPHE.data ++ capsTpl cp 3) text

/-- Function `identify_contracted_years` from `single_quotes.py`. -/
def identify_contracted_years (text : String) (_loc : LocaleProfile) : String :=
  let pattern : Pat :=
    { ci := false
      re := reSeq
        [RE.grp 1 (RE.alt (reNCls [ClsItem.range '0' '9'])
          (reSeq [reCls [ClsItem.range 'A' 'Z'], reCls [ClsItem.range '0' '9']])),
         RE.grp 2 (reCls SPACES_C),
         RE.grp 3 SINGLE_QUOTE_ADEPTS,
         RE.grp 4 (RE.rep 2 (some 2) false (reCls [DIGIT]))] }
  pySubF pattern
    (fun _ cp => capsTpl cp 1 ++ capsTpl cp 2 ++ TYPOPO_APOSTROPHE.data ++ capsTpl cp 4)
    text

/-- Function `identify_single_prime_as_feet` from `single_quotes.py`. -/
def identify_single_prime_as_feet (text : String) (_loc : LocaleProfile) : String :=
  let pattern : Pat :=
    { ci := false
      re := reSeq
        [RE.grp 1 (reCls [DIGIT]),
         RE.grp 2 spacesOpt,
         RE.grp 3 (reAlts [reChar '\x27', reChar '‘', reChar '’',
           reChar '‛', reChar '′'])] }
  pySubF pattern
    (fun _ cp => capsTpl cp 1 ++ capsTpl cp 2 ++ TYPOPO_SINGLE_PRIME.data) text

/-- Function `identify_unpaired_left_single_quote` from
`single_quotes.py`. -/
def identify_unpaired_left_single_quote (text : String) (_loc : LocaleProfile) : String :=
  let pattern : Pat :=
    { ci := false
      re := reSeq
        [RE.grp 1 (RE.alt (RE.bol false)
          (reCls [ClsItem.ofStr SPACES, ClsItem.one EM_DASH, ClsItem.one EN_DASH])),
         RE.grp 2 (RE.alt SINGLE_QUOTE_ADEPTS (reChar ',')),
         RE.grp 3 (reCls (ALL_CHARS ++ [ClsItem.one ELLIPSIS]))] }
  pySubF pattern
    (fun _ cp => capsTpl cp 1 ++ TYPOPO_LSQ_UNPAIRED.data ++ capsTpl cp 3) text

/-- Function `identify_unpaired_right_single_quote` from
`single_quotes.py`. -/
def identify_unpaired_right_single_quote (text : String) (_loc : LocaleProfile) : String :=
  let pattern : Pat :=
    { ci := false
      re := reSeq
        [RE.grp 1 (reCls ALL_CHARS),
         RE.rep 0 (some 1) false
           (RE.grp 2 (reCls (SENTENCE_PUNCTUATION ++ [ClsItem.one ELLIPSIS]))),
         RE.grp 3 SINGLE_QUOTE_ADEPTS,
         RE.rep 0 (some 1) false
           (RE.grp 4 (reCls ([ClsItem.one ' '] ++ SENTENCE_PUNCTUATION)))] }
  pySubF pattern
    (fun _ cp => capsTpl cp 1 ++ capsTpl cp 2 ++ TYPOPO_RSQ_UNPAIRED.data ++ capsTpl cp 4)
    text

/-- Function `identify_single_quote_pairs` from `single_quotes.py`
(note the greedy `(.*)` in the source). -/
def identify_single_quote_pairs (text : String) (_loc : LocaleProfile) : String :=
  let pattern : Pat :=
    { ci := false
      re := reSeq
        [RE.grp 1 (reStr TYPOPO_LSQ_UNPAIRED),
         RE.grp 2 (reStar (RE.dot false)),
         RE.grp 3 (reStr TYPOPO_RSQ_UNPAIRED)] }
  pySubF pattern
    (fun _ cp => TYPOPO_LSQ.data ++ capsTpl cp 2 ++ TYPOPO_RSQ.data) text

/-- Function `identify_single_quotes_within_double_quotes` from
`single_quotes.py`: inside each double-quoted span, run the unpaired
and pair identification on the inner text only (`process_inner`). -/
def identify_single_quotes_within_double_quotes (text : String) (loc : LocaleProfile) :
    String :=
  let double_quote_adepts : RE :=
    reAlts [reChar '"', reChar '“', reChar '”', reChar '„', reChar '«', reChar '»']
  let pattern : Pat :=
    { ci := false
      re := reSeq
        [RE.grp 1 double_quote_adepts,
         RE.grp 2 (reStarL (RE.dot false)),
         RE.grp 3 double_quote_adepts] }
  pySubF pattern
    (fun _ cp =>
      let content := String.mk (capsTpl cp 2)
      let content := identify_unpaired_left_single_quote content loc
      let content := identify_unpaired_right_single_quote content loc
      let content := identify_single_quote_pairs content loc
      capsTpl cp 1 ++ content.data ++ capsTpl cp 3) text

/-- Function `identify_single_quote_pair_around_single_word` from
`single_quotes.py`. -/
def identify_single_quote_pair_around_single_word (text : String) (_loc : LocaleProfile) :
    String :=
  let pattern : Pat :=
    { ci := false
      re := reSeq
        [RE.grp 1 (RE.wordB false),
         RE.grp 2 SINGLE_QUOTE_ADEPTS,
         RE.grp 3 (rePlus (reCls ALL_CHARS)),
         RE.grp 4 SINGLE_QUOTE_ADEPTS,
         RE.grp 5 (RE.wordB false)] }
  pySubF pattern
    (fun _ cp => capsTpl cp 1 ++ TYPOPO_LSQ.data ++ capsTpl cp 3 ++ TYPOPO_RSQ.data ++
      capsTpl cp 5) text

/-- Function `identify_residual_apostrophes` from `single_quotes.py`. -/
def identify_residual_apostrophes (text : String) (_loc : LocaleProfile) : String :=
  let pattern : Pat := { ci := false, re := RE.grp 1 SINGLE_QUOTE_ADEPTS }
  pySubF pattern (fun _ _ => TYPOPO_APOSTROPHE.data) text

/-- Function `replace_single_prime_with_single_quote` from
`single_quotes.py`. -/
def replace_single_prime_with_single_quote (text : String) (_loc : LocaleProfile) : String :=
  let pattern1 : Pat :=
    { ci := false
      re := reSeq
        [RE.grp 1 (reStr TYPOPO_LSQ_UNPAIRED),
         RE.grp 2 (reStarL (RE.dot false)),
         RE.grp 3 (reStr TYPOPO_SINGLE_PRIME)] }
  let text := pySubF pattern1
    (fun _ cp => TYPOPO_LSQ.data ++ capsTpl cp 2 ++ TYPOPO_RSQ.data) text
  let pattern2 : Pat :=
    { ci := false
      re := reSeq
        [RE.grp 1 (reStr TYPOPO_SINGLE_PRIME),
         RE.grp 2 (reStarL (RE.dot false)),
         RE.grp 3 (reStr TYPOPO_RSQ_UNPAIRED)] }
  pySubF pattern2
    (fun _ cp => TYPOPO_LSQ.data ++ capsTpl cp 2 ++ TYPOPO_RSQ.data) text

/-- Function `swap_single_quotes_and_terminal_punctuation` from
`single_quotes.py`: the single-quote mirror of
`swap_quotes_and_terminal_punctuation` (case 1 has no
closing-bracket exclusion here). -/
def swap_single_quotes_and_terminal_punctuation (text : String) (loc : LocaleProfile) :
    String :=
  let lq := loc.single_quote_open
  let rq := loc.single_quote_close
  let pattern1 : Pat :=
    { ci := false
      re := reSeq
        [RE.grp 1 (reNCls SENTENCE_PUNCTUATION),
         RE.grp 2 (reCls SPACES_C),
         RE.grp 3 (reStr lq),
         RE.grp 4 (rePlusL (reNCls [ClsItem.ofStr rq])),
         RE.grp 5 (reNCls [ClsItem.ofStr ROMAN_NUMERALS]),
         RE.grp 6 (reCls (TERMINAL_PUNCTUATION ++ [ClsItem.one ELLIPSIS])),
         RE.grp 7 (reStr rq)] }
  let text := pySubF pattern1
    (fun _ cp => capsTpl cp 1 ++ capsTpl cp 2 ++ capsTpl cp 3 ++ capsTpl cp 4 ++
      capsTpl cp 5 ++ capsTpl cp 7 ++ capsTpl cp 6) text
  let pattern2 : Pat :=
    { ci := false
      re := reSeq
        [RE.grp 1 (reNCls SENTENCE_PUNCTUATION),
         RE.grp 2 (reCls SPACES_C),
         RE.grp 3 (reStr lq),
         RE.grp 4 (rePlusL (RE.dot false)),
         RE.grp 5 (reNCls [ClsItem.ofStr ROMAN_NUMERALS]),
         RE.grp 6 (reStr rq),
         RE.grp 7 (reCls (TERMINAL_PUNCTUATION ++ [ClsItem.one ELLIPSIS])),
         RE.grp 8 (reCls SPACES_C),
         RE.grp 9 (reCls LOWERCASE_CHARS)] }
  let text := pySubF pattern2
    (fun _ cp => capsTpl cp 1 ++ capsTpl cp 2 ++ capsTpl cp 3 ++ capsTpl cp 4 ++
      capsTpl cp 5 ++ capsTpl cp 7 ++ capsTpl cp 6 ++ capsTpl cp 8 ++ capsTpl cp 9) text
  let pattern3 : Pat :=
    { ci := false
      re := reSeq
        [RE.grp 1 (reSeq [RE.bol true, reStr lq,
           rePlusL (reNCls [ClsItem.ofStr rq]),
           reNCls [ClsItem.ofStr ROMAN_NUMERALS]]),
         RE.grp 2 (reStr rq),
         RE.grp 3 (reCls (TERMINAL_PUNCTUATION ++ [ClsItem.one ELLIPSIS])),
         RE.grp 4 (RE.wordB false)] }
  let text := pySubF pattern3
    (fun _ cp => capsTpl cp 1 ++ capsTpl cp 3 ++ capsTpl cp 2 ++ capsTpl cp 4) text
  let pattern4 : Pat :=
    { ci := false
      re := reSeq
        [RE.grp 1 (reSeq [reCls SENTENCE_PUNCTUATION, reCls SPACES_C, reStr lq,
           rePlusL (reNCls [ClsItem.ofStr rq]),
           reNCls [ClsItem.ofStr ROMAN_NUMERALS]]),
         RE.grp 2 (reStr rq),
         RE.grp 3 (reCls (TERMINAL_PUNCTUATION ++ [ClsItem.one ELLIPSIS])),
         RE.grp 4 (RE.wordB false)] }
  let text := pySubF pattern4
    (fun _ cp => capsTpl cp 1 ++ capsTpl cp 3 ++ capsTpl cp 2 ++ capsTpl cp 4) text
  let pattern5 : Pat :=
    { ci := false
      re := reSeq
        [RE.grp 1 (reSeq [reCls SENTENCE_PUNCTUATION, reStr rq,
           reCls SPACES_C, reStr lq,
           rePlusL (reNCls [ClsItem.ofStr rq]),
           reNCls [ClsItem.ofStr ROMAN_NUMERALS]]),
         RE.grp 2 (reStr rq),
         RE.grp 3 (reCls (TERMINAL_PUNCTUATION ++ [ClsItem.one ELLIPSIS])),
         RE.grp 4 (RE.wordB false)] }
  pySubF pattern5
    (fun _ cp => capsTpl cp 1 ++ capsTpl cp 3 ++ capsTpl cp 2 ++ capsTpl cp 4) text

/-- Function `remove_extra_space_around_single_prime` from
`single_quotes.py`. -/
def remove_extra_space_around_single_prime (text : String) (_loc : LocaleProfile) : String :=
  let pattern : Pat :=
    { ci := false
      re := reSeq
        [RE.grp 1 (reCls SPACES_C),
         RE.grp 2 (reStr (String.mk [SINGLE_PRIME]))] }
  pySubF pattern (fun _ cp => capsTpl cp 2) text

/-- Function `place_locale_single_quotes` from `single_quotes.py`. -/
def place_locale_single_quotes (text : String) (loc : LocaleProfile) : String :=
  let text := pyReplaceAll text TYPOPO_SINGLE_PRIME (String.mk [SINGLE_PRIME])
  let pattern : Pat :=
    { ci := false
      re := reAlts [reStr TYPOPO_APOSTROPHE, reStr TYPOPO_LSQ_UNPAIRED,
        reStr TYPOPO_RSQ_UNPAIRED] }
  let text := pySubF pattern (fun _ _ => [APOSTROPHE]) text
  let text := pyReplaceAll text TYPOPO_LSQ loc.single_quote_open
  let text := pyReplaceAll text TYPOPO_RSQ loc.single_quote_close
  pyReplaceAll text TYPOPO_MD_SYNTAX_HIGHLIGHT "\x60\x60\x60"

/-- Function `fix_single_quotes_primes_and_apostrophes` from
`single_quotes.py` (the pipeline alias `fix_single_quotes`); the
orchestrator calls it with `keep_markdown_code_blocks = True`. -/
def fix_single_quotes_primes_and_apostrophes (text : String) (loc : LocaleProfile)
    (keep_markdown_code_blocks : Bool) : String :=
  let r0 := identify_markdown_code_ticks text keep_markdown_code_blocks
  let text := r0.1
  let markdown_blocks := r0.2
  let text := identify_contracted_and text loc
  let text := identify_contracted_beginnings text loc
  let text := identify_in_word_contractions text loc
  let text := identify_contracted_years text loc
  let text := identify_contracted_ends text loc
  let text := identify_single_prime_as_feet text loc
  let text := identify_single_quote_pair_around_single_word text loc
  let text := identify_single_quotes_within_double_quotes text loc
  let text := replace_single_prime_with_single_quote text loc
  let text := identify_residual_apostrophes text loc
  let text := place_locale_single_quotes text loc
  let text := place_markdown_code_ticks text markdown_blocks keep_markdown_code_blocks
  let text := swap_single_quotes_and_terminal_punctuation text loc
  remove_extra_space_around_single_prime text loc

/-- The pipeline entry `fix_single_quotes` (alias with the default
`keep_markdown_code_blocks=True`). -/
def fix_single_quotes (text : String) (loc : LocaleProfile) : String :=
  fix_single_quotes_primes_and_apostrophes text loc true

/-!
Embedding of `modules/words/exceptions.py`: the three protected-span
patterns (email, URL, filename), the exception collection with its
overlap filter, and the placeholder substitution and restoration.
-/
/-- Class item shorthand: all characters of a constant string. -/
def chSet (s : String) : RE := reCls [ClsItem.ofStr s]

/-- The alphanumeric class `[a-zA-Z0-9]`. -/
def alnumC : List ClsItem :=
  [ClsItem.range 'a' 'z', ClsItem.range 'A' 'Z', ClsItem.range '0' '9']

/-- `EMAIL_PATTERN` from `exceptions.py`, compiled with
`re.IGNORECASE`. -/
def EMAIL_RE : Pat :=
  { ci := true
    re := reSeq
      [RE.rep 1 (some 256) false (reCls (alnumC ++ [ClsItem.one '+', ClsItem.one '.',
         ClsItem.one '_', ClsItem.one '%', ClsItem.one '-'])),
       reChar '@',
       reCls alnumC,
       RE.rep 0 (some 64) false (reCls (alnumC ++ [ClsItem.one '-'])),
       RE.rep 1 none false (reSeq
         [reChar '.',
          reCls alnumC,
          RE.rep 0 (some 25) false (reCls (alnumC ++ [ClsItem.one '-']))])] }

/-- The `_TLD_LIST` alternation from `exceptions.py`, flattened in
source order (the `(?:...)` groups are non-capturing). -/
def TLD_LIST : RE :=
  reAlts
    [reStr "aero", reStr "arpa", reStr "asia", reStr "agency",
     reSeq [reChar 'a', chSet "cdefgilmnoqrstuwxz"],
     reStr "biz", reSeq [reChar 'b', chSet "abdefghijmnorstvwyz"],
     reStr "cat", reStr "cloud", reStr "com", reStr "company", reStr "coop",
     reSeq [reChar 'c', chSet "acdfghiklmnoruvxyz"],
     reStr "dev", reSeq [reChar 'd', chSet "ejkmoz"],
     reStr "edu", reSeq [reChar 'e', chSet "cegrstu"],
     reSeq [reChar 'f', chSet "ijkmor"],
     reStr "gov", reStr "guide", reSeq [reChar 'g', chSet "abdefghilmnpqrstuwy"],
     reSeq [reChar 'h', chSet "kmnrtu"],
     reStr "info", reStr "int", reSeq [reChar 'i', chSet "delmnoqrst"],
     reStr "jobs", reSeq [reChar 'j', chSet "emop"],
     reSeq [reChar 'k', chSet "eghimnrwyz"],
     reSeq [reChar 'l', chSet "abcikrstuvy"],
     reStr "mil", reStr "mobi", reStr "museum",
     reSeq [reChar 'm', chSet "acdghklmnopqrstuvwxyz"],
     reStr "name", reStr "net", reSeq [reChar 'n', chSet "acefgilopruz"],
     reStr "org", reStr "om", reStr "one",
     reStr "pro", reSeq [reChar 'p', chSet "aefghklmnrstwy"],
     reStr "qa", reSeq [reChar 'r', chSet "eouw"],
     reStr "shop", reStr "store", reSeq [reChar 's', chSet "abcdeghijklmnortuvyz"],
     reStr "tel", reStr "travel", reStr "team",
     reSeq [reChar 't', chSet "cdfghjklmnoprtvwz"],
     reSeq [reChar 'u', chSet "agkmsyz"],
     reSeq [reChar 'v', chSet "aceginu"],
     reStr "work", reSeq [reChar 'w', chSet "fs"],
     reStr "xyz",
     reSeq [reChar 'y', chSet "etu"],
     reSeq [reChar 'z', chSet "amw"]]

/-- One octet of `_IPV4_PATTERN`. -/
def ipv4Octet : RE :=
  reAlts
    [reSeq [reStr "25", reCls [ClsItem.range '0' '5']],
     reSeq [reChar '2', reCls [ClsItem.range '0' '4'], reCls [ClsItem.range '0' '9']],
     reSeq [RE.rep 0 (some 1) false (reCls [ClsItem.range '0' '1']),
       RE.rep 1 (some 2) false (reCls [ClsItem.range '0' '9'])]]

/-- `_IPV4_PATTERN` from `exceptions.py`. -/
def IPV4_RE : RE :=
  reSeq [ipv4Octet, reChar '.', ipv4Octet, reChar '.', ipv4Octet, reChar '.', ipv4Octet]

/-- `_URL_CHAR` from `exceptions.py`. -/
def URL_CHAR : RE :=
  RE.alt
    (reCls (alnumC ++ [ClsItem.one '$', ClsItem.one '-', ClsItem.one '_',
      ClsItem.one '.', ClsItem.one '+', ClsItem.one '!', ClsItem.one '*',
      ClsItem.one '\x27', ClsItem.one '(', ClsItem.one ')', ClsItem.one ',',
      ClsItem.one ';', ClsItem.one '?', ClsItem.one '&', ClsItem.one '=']))
    (reSeq [reChar '%', RE.rep 2 (some 2) false
      (reCls [ClsItem.range 'a' 'f', ClsItem.range 'A' 'F', ClsItem.range '0' '9'])])

/-- `URL_PATTERN` from `exceptions.py`, compiled with `re.IGNORECASE`:
optional protocol with optional authentication, domain or IPv4
address, optional port, optional path, and a trailing `(?:\b|$)`. -/
def URL_RE : Pat :=
  { ci := true
    re := reSeq
      [RE.rep 0 (some 1) false (reSeq
        [RE.alt (reSeq [reStr "http", RE.rep 0 (some 1) false (reChar 's')]) (reStr "rtsp"),
         reStr "://",
         RE.rep 0 (some 1) false (reSeq
           [RE.rep 1 (some 64) false URL_CHAR,
            RE.rep 0 (some 1) false (reSeq [reChar ':', RE.rep 1 (some 25) false URL_CHAR]),
            reChar '@'])]),
       RE.alt
         (reSeq
           [RE.rep 1 none false (reSeq
             [reCls alnumC,
              RE.rep 0 (some 64) false (reCls (alnumC ++ [ClsItem.one '-'])),
              reChar '.']),
            TLD_LIST])
         IPV4_RE,
       RE.rep 0 (some 1) false (reSeq
         [reChar ':', RE.rep 1 (some 5) false (reCls [DIGIT])]),
       RE.rep 0 (some 1) false (reSeq
         [reChar '/',
          RE.rep 0 none false (RE.alt
            (reCls (alnumC ++ [ClsItem.one ';', ClsItem.one '\\', ClsItem.one '/',
              ClsItem.one '?', ClsItem.one ':', ClsItem.one '@', ClsItem.one '&',
              ClsItem.one '=', ClsItem.one '#', ClsItem.one '~', ClsItem.one '-',
              ClsItem.one '.', ClsItem.one '+', ClsItem.one '!', ClsItem.one '*',
              ClsItem.one '\x27', ClsItem.one '(', ClsItem.one ')', ClsItem.one ',',
              ClsItem.one '_']))
            (reSeq [reChar '%', RE.rep 2 (some 2) false
              (reCls [ClsItem.range 'a' 'f', ClsItem.range 'A' 'F',
                ClsItem.range '0' '9'])]))]),
       RE.alt (RE.wordB true) (RE.eol false)] }

/-- The `_FILE_EXTENSIONS` alternation from `exceptions.py`, in source
order. -/
def FILE_EXTENSIONS : List String :=
  ["ai", "asm", "bat", "bmp", "c", "cpp", "cs", "css", "csv", "dart", "doc",
   "docx", "exe", "gif", "go", "html", "ics", "java", "jpeg", "jpg", "js",
   "json", "key", "kt", "less", "lua", "log", "md", "mp4", "odp", "ods",
   "odt", "pdf", "php", "pl", "png", "ppt", "pptx", "psd", "py", "r", "rar",
   "rb", "rs", "scala", "scss", "sh", "svg", "sql", "swift", "tar.gz",
   "tar", "tex", "tiff", "ts", "txt", "vbs", "xml", "xls", "xlsx", "yaml",
   "yml", "zip"]

/-- `FILENAME_PATTERN` from `exceptions.py`, compiled with
`re.IGNORECASE`. -/
def FILENAME_RE : Pat :=
  { ci := true
    re := reSeq
      [RE.wordB true,
       rePlus (reCls (alnumC ++ [ClsItem.one '_', ClsItem.one '%', ClsItem.one '-'])),
       reChar '.',
       reAlts (FILE_EXTENSIONS.map reStr),
       RE.wordB true] }

/-- The numbered placeholder `{{typopo__exception-i}}` built by
`_replace_with_placeholders` and `place_exceptions`. -/
def exception_placeholder (i : Nat) : String :=
  "\x7b\x7btypopo__exception-" ++ natToStr i ++ "\x7d\x7d"

/-- The loop of `_replace_with_placeholders`: replace the first
occurrence of each exception, in order, by its numbered placeholder. -/
def replacePlaceholdersGo : Nat → List String → String → String
  | _, [], result => result
  | i, e :: es, result =>
    replacePlaceholdersGo (i + 1) es (pyReplaceFirst result e (exception_placeholder i))

/-- Function `_replace_with_placeholders` from `exceptions.py`. -/
def replace_with_placeholders (text : String) (exceptions : List String) : String :=
  replacePlaceholdersGo 0 exceptions text

/-- The stable sort key order of `exclude_exceptions`:
`(start, -(end-start))`, i.e. earlier start first and, for equal
starts, longer match first. -/
def matchLe (a b : Nat × Nat × String) : Bool :=
  decide (a.1 < b.1) || (decide (a.1 = b.1) && decide (b.2.1 - b.1 ≤ a.2.1 - a.1))

/-- Stable insertion into a sorted list (elements with equal keys keep
their original relative order, matching Python's stable `sort`). -/
def insSorted (le : α → α → Bool) (x : α) : List α → List α
  | [] => [x]
  | y :: ys => if le y x then y :: insSorted le x ys else x :: y :: ys

/-- Stable insertion sort (the model of Python's `list.sort`). -/
def pySort (le : α → α → Bool) : List α → List α
  | [] => []
  | x :: xs => insSorted le x (pySort le xs)

/-- The overlap filter of `exclude_exceptions`: walk the sorted
matches, keep a match only when its span does not intersect any
already covered range. -/
def overlapGo : List (Nat × Nat × String) → List String → List (Nat × Nat) → List String
  | [], exceptions, _ => exceptions
  | (s, e, m) :: rest, exceptions, covered =>
    let is_overlapping := covered.any (fun r => decide (s < r.2) && decide (e > r.1))
    if is_overlapping then overlapGo rest exceptions covered
    else overlapGo rest (exceptions ++ [m]) (covered ++ [(s, e)])

/-- The result record of `exclude_exceptions` (the Python function
returns a dict with these two keys). -/
structure ExceptionResult where
  processed_text : String
  exceptions : List String
  deriving Repr, DecidableEq

/-- Function `exclude_exceptions` from `exceptions.py`: collect email,
URL and filename matches in that order, sort by
`(start, -(length))`, drop overlapping matches, and replace each kept
exception by its numbered placeholder. -/
def exclude_exceptions (text : String) : ExceptionResult :=
  let all_matches :=
    (pyFindIter EMAIL_RE text).map (fun r => (r.1, r.2.1, String.mk r.2.2)) ++
    (pyFindIter URL_RE text).map (fun r => (r.1, r.2.1, String.mk r.2.2)) ++
    (pyFindIter FILENAME_RE text).map (fun r => (r.1, r.2.1, String.mk r.2.2))
  let all_matches := pySort matchLe all_matches
  let exceptions := overlapGo all_matches [] []
  { processed_text := replace_with_placeholders text exceptions
    exceptions := exceptions }

/-- The loop of `place_exceptions`: replace every occurrence of each
numbered placeholder by its exception.  (The source's
`exception.replace("\\", "\\\\")` only undoes the template escaping of
`re.sub`, so the net replacement is the literal exception string.) -/
def placeExceptionsGo : Nat → List String → String → String
  | _, [], result => result
  | i, e :: es, result =>
    placeExceptionsGo (i + 1) es (pyReplaceAll result (exception_placeholder i) e)

/-- Function `place_exceptions` from `exceptions.py`. -/
def place_exceptions (text : String) (exceptions : List String) : String :=
  placeExceptionsGo 0 exceptions text

/-!
Infrastructure for the exception round trip (claim C2): a conservative
character analysis of the matcher, and a ledger of placeholder blocks
and literal segments describing the masked text.
-/
/-- The characters `.` and `@`: one of them occurs in every email, URL
or filename match, and neither occurs in a placeholder. -/
def mustCh (c : Char) : Bool := c == '.' || c == '@'

/-- Over-approximation of the characters a pattern can consume. -/
def alphaOK (ci : Bool) (c : Char) : RE → Bool
  | RE.eps => false
  | RE.cls neg items => clsMatch ci neg items c
  | RE.dot _ => true
  | RE.cat a b => alphaOK ci c a || alphaOK ci c b
  | RE.alt a b => alphaOK ci c a || alphaOK ci c b
  | RE.rep _ _ _ a => alphaOK ci c a
  | RE.grp _ a => alphaOK ci c a
  | RE.wordB _ => false
  | RE.bol _ => false
  | RE.eol _ => false

/-- Does the class certainly consume a `mustCh` character?  Only the
literal single-character classes for `.` and `@` are recognised. -/
def clsMust : Bool → List ClsItem → Bool
  | false, [ClsItem.one c] => mustCh c
  | _, _ => false

/-- Conservative check that every successful match of the pattern
consumes at least one `mustCh` character. -/
def mustHas : RE → Bool
  | RE.eps => false
  | RE.cls neg items => clsMust neg items
  | RE.dot _ => false
  | RE.cat a b => mustHas a || mustHas b
  | RE.alt a b => mustHas a && mustHas b
  | RE.rep lo _ _ a => decide (0 < lo) && mustHas a
  | RE.grp _ a => mustHas a
  | RE.wordB _ => false
  | RE.bol _ => false
  | RE.eol _ => false

/-- The placeholder text after its two opening braces. -/
def phMidL (i : Nat) : List Char :=
  "typopo__exception-".data ++ natDigits (i + 1) i ++ ['\x7d', '\x7d']

/-- Code points of the numbered placeholder `exception_placeholder i`. -/
def phL (i : Nat) : List Char := '\x7b' :: '\x7b' :: phMidL i

/-- One piece of the masked text: a literal segment, or the placeholder
block numbered `i`. -/
inductive Chunk where
  | seg (s : List Char)
  | blk (i : Nat)
  deriving Repr, DecidableEq

/-- The text a chunk list denotes (each block renders as its
placeholder). -/
def renderC : List Chunk → List Char
  | [] => []
  | Chunk.seg s :: r => s ++ renderC r
  | Chunk.blk i :: r => phL i ++ renderC r

/-- The text with each block `i` replaced by `f i` (the fully restored
text when `f` is the exception list). -/
def unmaskF (f : Nat → List Char) : List Chunk → List Char
  | [] => []
  | Chunk.seg s :: r => s ++ unmaskF f r
  | Chunk.blk i :: r => f i ++ unmaskF f r

/-- The block numbers of a chunk list. -/
def blkIdxs : List Chunk → List Nat
  | [] => []
  | Chunk.seg _ :: r => blkIdxs r
  | Chunk.blk i :: r => i :: blkIdxs r

/-- Well-formedness of a chunk list: every segment is free of left
braces, and no two segments are adjacent (the flag tells whether a
segment may come first). -/
def chunksWF : Bool → List Chunk → Prop
  | _, [] => True
  | b, Chunk.seg s :: r => b = true ∧ ('\x7b' : Char) ∉ s ∧ chunksWF false r
  | _, Chunk.blk _ :: r => chunksWF true r

/-- Prepend one character, merging it into a leading segment. -/
def consSeg (c : Char) : List Chunk → List Chunk
  | Chunk.seg u :: rest => Chunk.seg (c :: u) :: rest
  | cs => Chunk.seg [c] :: cs

/-- Replace block `k` by the segment `e`: the effect of one restore
step on the ledger. -/
def replaceBlkC (k : Nat) (e : List Char) : Chunk → Chunk
  | Chunk.seg s => Chunk.seg s
  | Chunk.blk i => if i = k then Chunk.seg e else Chunk.blk i

/-!
Theorems: helper lemmas first, then the per-claim theorems, their
witnesses, and the counterexamples.
-/


/-- Normalization always lands in the supported set. -/
theorem normalize_locale_id_mem (id : Option String) :
    normalize_locale_id id ∈ SUPPORTED_LOCALES := by
  cases id with
  | none => decide
  | some s =>
    simp only [normalize_locale_id]
    by_cases he : s = ""
    · rw [if_pos he]
      decide
    · rw [if_neg he]
      by_cases hc : SUPPORTED_LOCALES.contains (pyLower s) = true
      · rw [if_pos hc]
        exact List.elem_iff.mp hc
      · rw [if_neg hc]
        decide

/-- A supported id is one of the five literals. -/
theorem supported_cases (nid : String) (h : nid ∈ SUPPORTED_LOCALES) :
    nid = "en-us" ∨ nid = "de-de" ∨ nid = "cs" ∨ nid = "sk" ∨ nid = "rue" := by
  simpa [SUPPORTED_LOCALES, LOCALE_CONFIGS] using h

/-- The lookup of `get_locale` always lands in the fixed table. -/
theorem get_locale_eval (id : Option String) :
    get_locale id ∈ allLocales := by
  have h := supported_cases _ (normalize_locale_id_mem id)
  unfold get_locale
  rcases h with h | h | h | h | h <;> rw [h] <;> decide

/-- Strings with the same lowercasing are simultaneously empty. -/
theorem pyLower_empty_iff (s t : String) (h : pyLower s = pyLower t) :
    (s = "" ↔ t = "") := by
  have hd : s.data.map lowerA = t.data.map lowerA := congrArg String.data h
  have hl : s.data.length = t.data.length := by
    simpa using congrArg List.length hd
  rw [String.ext_iff, String.ext_iff]
  show s.data = "".data ↔ t.data = "".data
  constructor
  · intro hs
    exact List.length_eq_zero.mp (by rw [← hl, hs]; rfl)
  · intro ht
    exact List.length_eq_zero.mp (by rw [hl, ht]; rfl)

/-- C8: locale resolution is total and never raises: every id (also
`None`, the empty string, case variants, and unsupported strings)
yields one of the five fixed profiles; ids equal up to letter case
resolve identically; and unknown, empty or missing ids resolve to the
default `en-us` profile. -/
theorem c8_locale_resolution :
    (∀ id : Option String, get_locale id ∈ allLocales)
    ∧ (∀ s t : String, pyLower s = pyLower t → get_locale (some s) = get_locale (some t))
    ∧ get_locale none = localeEnUs
    ∧ get_locale (some "") = localeEnUs
    ∧ (∀ s : String, pyLower s ∉ SUPPORTED_LOCALES → get_locale (some s) = localeEnUs) := by
  refine ⟨get_locale_eval, ?_, by decide, by decide, ?_⟩
  · intro s t h
    have hiff := pyLower_empty_iff s t h
    have hn : normalize_locale_id (some s) = normalize_locale_id (some t) := by
      simp only [normalize_locale_id]
      by_cases hs : s = ""
      · rw [if_pos hs, if_pos (hiff.mp hs)]
      · rw [if_neg hs, if_neg (fun c => hs (hiff.mpr c)), h]
    unfold get_locale
    rw [hn]
  · intro s hs
    have hn : normalize_locale_id (some s) = "en-us" := by
      simp only [normalize_locale_id]
      by_cases he : s = ""
      · rw [if_pos he]
        rfl
      · rw [if_neg he, if_neg (fun hb => hs (List.elem_iff.mp hb))]
        rfl
    unfold get_locale
    rw [hn]
    decide

/-- Witness for C8 at concrete inputs: `EN-US` and `en-us` resolve to
the same profile, and the unknown id `xx` resolves to the default. -/
theorem c8_locale_resolution_witness :
    get_locale (some "EN-US") = get_locale (some "en-us")
    ∧ get_locale (some "xx") = localeEnUs :=
  ⟨c8_locale_resolution.2.1 "EN-US" "en-us" (by decide),
   c8_locale_resolution.2.2.2.2 "xx" (by decide)⟩

/-- Invariant of the overlap loop: the returned string is a `sub`
iterate of the current result; the loop either started with
`result = previous_result`, or reached a fixed point, or used exactly
the remaining iteration budget. -/
theorem overlapLoop_spec (sub : String → String) :
    ∀ (fuel : Nat) (r p : String),
    ∃ n, overlapLoop sub fuel r p = sub^[n] r ∧ n ≤ fuel ∧
      (r = p ∨ sub (sub^[n] r) = sub^[n] r ∨ n = fuel) := by
  intro fuel
  induction fuel with
  | zero =>
    intro r p
    exact ⟨0, rfl, le_refl 0, Or.inr (Or.inr rfl)⟩
  | succ fuel ih =>
    intro r p
    by_cases hrp : r = p
    · refine ⟨0, ?_, Nat.zero_le _, Or.inl hrp⟩
      rw [overlapLoop]
      rw [if_neg (fun hc => hc hrp)]
      rfl
    · obtain ⟨n, hloop, hn, hdis⟩ := ih (sub r) r
      refine ⟨n + 1, ?_, by omega, ?_⟩
      · rw [overlapLoop, if_pos hrp, hloop, Function.iterate_succ_apply]
      · rcases hdis with h1 | h2 | h3
        · refine Or.inr (Or.inl ?_)
          have hit : sub^[n + 1] r = r := by
            rw [Function.iterate_succ_apply, h1, Function.iterate_fixed h1]
          rw [hit]
          exact h1
        · refine Or.inr (Or.inl ?_)
          rw [Function.iterate_succ_apply]
          exact h2
        · exact Or.inr (Or.inr (by omega))

/-- C7 (amended): for every pattern/replacement (abstracted as the
one-pass substitution `sub`) and every text, the rewriter terminates
after at most `MAX_ITERATIONS` substitution passes and returns an
iterate `sub^[n] text` with `n ≤ MAX_ITERATIONS`; the result is a
fixed point of `sub`, or the ceiling was reached, or the input was the
empty string (which the loop's `previous_result = ""` sentinel returns
untouched without applying the substitution even when the pattern
matches the empty string); moreover, whenever the text is already
unchanged by one pass — in particular when the pattern has no match —
the input is returned unchanged. -/
theorem c7_overlap_amended :
    (∀ (sub : String → String) (text : String),
      ∃ n, n ≤ MAX_ITERATIONS ∧ replace_with_overlap_handling sub text = sub^[n] text ∧
        (text = "" ∨ sub (sub^[n] text) = sub^[n] text ∨ n = MAX_ITERATIONS))
    ∧ (∀ (sub : String → String) (text : String), sub text = text →
        replace_with_overlap_handling sub text = text) := by
  constructor
  · intro sub text
    obtain ⟨n, hloop, hn, hdis⟩ := overlapLoop_spec sub MAX_ITERATIONS text ""
    exact ⟨n, hn, hloop, by
      rcases hdis with h1 | h2 | h3
      · exact Or.inl h1
      · exact Or.inr (Or.inl h2)
      · exact Or.inr (Or.inr h3)⟩
  · intro sub text hfix
    obtain ⟨n, hloop, hn, hdis⟩ := overlapLoop_spec sub MAX_ITERATIONS text ""
    rw [replace_with_overlap_handling, hloop, Function.iterate_fixed hfix]

/-- Witness for C7 (amended) at a concrete instance: the identity
substitution (a pattern with no match) leaves `"ab"` unchanged. -/
theorem c7_overlap_amended_witness :
    replace_with_overlap_handling (fun s => s) "ab" = "ab" :=
  c7_overlap_amended.2 (fun s => s) "ab" rfl

/-- Counterexample to C7 as stated: with the empty input and a
substitution that rewrites the empty string (e.g. `re.sub('.*', 'x', ...)`,
whose one-pass action is the constant function `"x"`), the rewriter
returns the input after zero passes, which is neither a fixed point of
the substitution nor the text reached at the iteration ceiling. -/
theorem c7_overlap_counterexample :
    replace_with_overlap_handling (fun _ => "x") "" = ""
    ∧ (fun (_ : String) => "x") "" ≠ ""
    ∧ ((fun (_ : String) => "x")^[MAX_ITERATIONS] "") ≠ "" := by
  refine ⟨?_, by decide, ?_⟩
  · rfl
  · have : (fun (_ : String) => "x")^[MAX_ITERATIONS] "" = "x" := by
      have h50 : MAX_ITERATIONS = 49 + 1 := rfl
      rw [h50, Function.iterate_succ_apply']
    rw [this]
    decide

/-!
Properties of the decimal rendering `natToStr`: fuel irrelevance, a
recurrence, digits-only content, nonemptiness, and injectivity.  These
underpin the placeholder-structure lemmas of the exception ledger.
-/

/-- The fuel of `natDigits` is irrelevant once it exceeds `n`. -/
theorem natDigits_fuel : ∀ n : Nat, ∀ f, n < f → natDigits f n = natDigits (n + 1) n := by
  intro n
  induction n using Nat.strong_induction_on with
  | _ n ih =>
    intro f hf
    match f, hf with
    | f' + 1, hf =>
      by_cases h10 : n < 10
      · cases n with
        | zero => rfl
        | succ m =>
          rw [natDigits, natDigits, if_pos h10, if_pos h10]
      · have hdiv : n / 10 < n := Nat.div_lt_self (by omega) (by omega)
        rw [natDigits, natDigits, if_neg h10, if_neg h10]
        have h1 : natDigits f' (n / 10) = natDigits (n / 10 + 1) (n / 10) :=
          ih (n / 10) hdiv f' (by omega)
        have h2 : natDigits n (n / 10) = natDigits (n / 10 + 1) (n / 10) :=
          ih (n / 10) hdiv n (by omega)
        rw [h1, h2]

/-- Recurrence for the canonical-fuel digits. -/
theorem natDigits_rec (n : Nat) :
    natDigits (n + 1) n =
      if n < 10 then [Char.ofNat (48 + n)]
      else natDigits (n / 10 + 1) (n / 10) ++ [Char.ofNat (48 + n % 10)] := by
  by_cases h10 : n < 10
  · rw [natDigits, if_pos h10, if_pos h10]
  · have hdiv : n / 10 < n := Nat.div_lt_self (by omega) (by omega)
    rw [natDigits, if_neg h10, if_neg h10,
      natDigits_fuel (n / 10) n (by omega)]

/-- Code-point bound for a digit character. -/
theorem digitChar_toNat : ∀ a, a < 10 → (Char.ofNat (48 + a)).toNat = 48 + a := by
  decide

/-- Every character of `natToStr n` is a decimal digit (stated on code
points). -/
theorem natToStr_digits : ∀ n : Nat, ∀ c ∈ (natToStr n).data,
    48 ≤ c.toNat ∧ c.toNat ≤ 57 := by
  intro n
  induction n using Nat.strong_induction_on with
  | _ n ih =>
    intro c hc
    have hde : (natToStr n).data = natDigits (n + 1) n := rfl
    rw [natToStr] at hc
    rw [show (String.mk (natDigits (n + 1) n)).data = natDigits (n + 1) n from rfl,
      natDigits_rec n] at hc
    by_cases h10 : n < 10
    · rw [if_pos h10] at hc
      simp at hc
      subst hc
      rw [digitChar_toNat n h10]
      omega
    · rw [if_neg h10] at hc
      have hdiv : n / 10 < n := Nat.div_lt_self (by omega) (by omega)
      rcases List.mem_append.mp hc with h | h
      · exact ih (n / 10) hdiv c h
      · simp at h
        subst h
        rw [digitChar_toNat (n % 10) (Nat.mod_lt n (by omega))]
        have := Nat.mod_lt n (show 0 < 10 by omega)
        omega

/-- The digit list is never empty. -/
theorem natToStr_ne_nil (n : Nat) : (natToStr n).data ≠ [] := by
  show natDigits (n + 1) n ≠ []
  rw [natDigits_rec n]
  by_cases h10 : n < 10
  · rw [if_pos h10]
    simp
  · rw [if_neg h10]
    simp

/-- Digit characters are injective in their digit. -/
theorem digitChar_inj : ∀ a, a < 10 → ∀ b, b < 10 →
    Char.ofNat (48 + a) = Char.ofNat (48 + b) → a = b := by
  decide

/-- The decimal rendering is injective. -/
theorem natToStr_inj : ∀ m n : Nat, natToStr m = natToStr n → m = n := by
  intro m
  induction m using Nat.strong_induction_on with
  | _ m ih =>
    intro n h
    have hd : natDigits (m + 1) m = natDigits (n + 1) n := by
      have := congrArg String.data h
      simpa [natToStr] using this
    rw [natDigits_rec m, natDigits_rec n] at hd
    by_cases hm : m < 10 <;> by_cases hn : n < 10
    · rw [if_pos hm, if_pos hn] at hd
      simp at hd
      exact digitChar_inj m hm n hn hd
    · rw [if_pos hm, if_neg hn] at hd
      have hlen := congrArg List.length hd
      have hne : (natDigits (n / 10 + 1) (n / 10)) ≠ [] := by
        have := natToStr_ne_nil (n / 10)
        simpa [natToStr] using this
      simp at hlen
      cases hq : natDigits (n / 10 + 1) (n / 10) with
      | nil => exact absurd hq hne
      | cons a l => rw [hq] at hlen; simp at hlen
    · rw [if_neg hm, if_pos hn] at hd
      have hlen := congrArg List.length hd
      have hne : (natDigits (m / 10 + 1) (m / 10)) ≠ [] := by
        have := natToStr_ne_nil (m / 10)
        simpa [natToStr] using this
      simp at hlen
      cases hq : natDigits (m / 10 + 1) (m / 10) with
      | nil => exact absurd hq hne
      | cons a l => rw [hq] at hlen; simp at hlen
    · rw [if_neg hm, if_neg hn] at hd
      have hrev := congrArg List.reverse hd
      simp at hrev
      obtain ⟨hlast, hinit⟩ := hrev
      have hdiveq : m / 10 = n / 10 := by
        apply ih (m / 10) (Nat.div_lt_self (by omega) (by omega))
        have : natDigits (m / 10 + 1) (m / 10) = natDigits (n / 10 + 1) (n / 10) := by
          have := congrArg List.reverse hinit
          simpa using this
        simp [natToStr, String.ext_iff]
        exact this
      have hmodeq : m % 10 = n % 10 :=
        digitChar_inj (m % 10) (Nat.mod_lt m (by omega)) (n % 10) (Nat.mod_lt n (by omega)) hlast
      omega


/-!
Character facts used by the exception round trip: code-point bounds,
the ASCII case maps fix `.` and `@`, and the single-character-class
soundness of `clsMust`.
-/
set_option maxRecDepth 2000 in
/-- `Char.ofNat` round-trips on small code points. -/
theorem charOfNat_small : ∀ m, m < 256 → (Char.ofNat m).toNat = m := by
  decide

/-- Characters with equal code points are equal. -/
theorem char_toNat_eq (c d : Char) (h : c.toNat = d.toNat) : c = d :=
  Char.eq_of_val_eq (by
    apply UInt32.eq_of_toBitVec_eq; apply BitVec.eq_of_toNat_eq; exact h)

/-- `≤` on characters is `≤` on code points. -/
theorem char_le_toNat {a c : Char} (h : a ≤ c) : a.toNat ≤ c.toNat := by
  rw [Char.le_def, UInt32.le_def, BitVec.le_def] at h; exact h

/-- If ASCII lowercasing sends `c` to a `mustCh` character, no case
change happened. -/
theorem lowerA_mustCh (c d : Char) (h : lowerA c = d) (hd : mustCh d = true) :
    c = d := by
  rw [lowerA] at h
  split at h
  · exfalso
    rename_i hr
    have h1 : 65 ≤ c.toNat := by
      have := char_le_toNat hr.1; simpa using this
    have h2 : c.toNat ≤ 90 := by
      have := char_le_toNat hr.2; simpa using this
    have hv : (Char.ofNat (c.toNat + 32)).toNat = c.toNat + 32 :=
      charOfNat_small _ (by omega)
    have hdt : d.toNat = c.toNat + 32 := by rw [← h]; exact hv
    have : d = '.' ∨ d = '@' := by
      rcases Bool.or_eq_true_iff.mp hd with h' | h'
      · exact Or.inl (eq_of_beq h')
      · exact Or.inr (eq_of_beq h')
    rcases this with rfl | rfl
    · have : Char.toNat '.' = 46 := rfl
      omega
    · have : Char.toNat '@' = 64 := rfl
      omega
  · exact h

/-- If ASCII uppercasing sends `c` to a `mustCh` character, no case
change happened. -/
theorem upperA_mustCh (c d : Char) (h : upperA c = d) (hd : mustCh d = true) :
    c = d := by
  rw [upperA] at h
  split at h
  · exfalso
    rename_i hr
    have h1 : 97 ≤ c.toNat := by
      have := char_le_toNat hr.1; simpa using this
    have h2 : c.toNat ≤ 122 := by
      have := char_le_toNat hr.2; simpa using this
    have hv : (Char.ofNat (c.toNat - 32)).toNat = c.toNat - 32 :=
      charOfNat_small _ (by omega)
    have hdt : d.toNat = c.toNat - 32 := by rw [← h]; exact hv
    have : d = '.' ∨ d = '@' := by
      rcases Bool.or_eq_true_iff.mp hd with h' | h'
      · exact Or.inl (eq_of_beq h')
      · exact Or.inr (eq_of_beq h')
    rcases this with rfl | rfl
    · have : Char.toNat '.' = 46 := rfl
      omega
    · have : Char.toNat '@' = 64 := rfl
      omega
  · exact h

/-- A class recognised by `clsMust` only matches `mustCh` characters,
also under `re.IGNORECASE`. -/
theorem clsMust_sound (ci neg : Bool) (items : List ClsItem) (c : Char)
    (hm : clsMust neg items = true) (hc : clsMatch ci neg items c = true) :
    mustCh c = true := by
  unfold clsMust at hm
  split at hm
  · rename_i d
    simp only [clsMatch, clsMatchBase, clsItemMatch, List.any_cons,
      List.any_nil, Bool.or_false, if_neg (by simp : ¬(false = true)),
      Bool.or_eq_true, Bool.and_eq_true, beq_iff_eq] at hc
    rcases hc with rfl | ⟨-, h | h⟩
    · exact hm
    · rw [lowerA_mustCh c d h hm]; exact hm
    · rw [upperA_mustCh c d h hm]; exact hm
  · exact absurd hm (by simp)

/-- The placeholder string in ledger form. -/
theorem exception_placeholder_data (i : Nat) :
    (exception_placeholder i).data = phL i := by
  show ("\x7b\x7btypopo__exception-" ++ natToStr i ++ "\x7d\x7d").data = _
  rw [String.data_append, String.data_append]
  have h1 : "\x7b\x7btypopo__exception-".data =
      '\x7b' :: '\x7b' :: "typopo__exception-".data := by decide
  have h2 : "\x7d\x7d".data = ['\x7d', '\x7d'] := by decide
  have h3 : (natToStr i).data = natDigits (i + 1) i := rfl
  rw [h1, h2, h3, phL, phMidL]
  simp

/-- Digit bounds for the number inside a placeholder. -/
theorem ph_digits (i : Nat) : ∀ c ∈ natDigits (i + 1) i,
    48 ≤ c.toNat ∧ c.toNat ≤ 57 :=
  natToStr_digits i

/-- Digits are neither `mustCh` characters nor braces. -/
theorem digit_not_special (c : Char) (h48 : 48 ≤ c.toNat) (h57 : c.toNat ≤ 57) :
    mustCh c = false ∧ c ≠ '\x7b' ∧ c ≠ '\x7d' := by
  refine ⟨?_, ?_, ?_⟩
  · rw [mustCh, Bool.or_eq_false_iff]
    constructor
    · rw [beq_eq_false_iff_ne]
      intro h; subst h
      have : Char.toNat '.' = 46 := rfl
      omega
    · rw [beq_eq_false_iff_ne]
      intro h; subst h
      have : Char.toNat '@' = 64 := rfl
      omega
  · intro h; subst h
    have : Char.toNat '\x7b' = 123 := rfl
    omega
  · intro h; subst h
    have : Char.toNat '\x7d' = 125 := rfl
    omega

/-- The characters after the opening braces of a placeholder: never a
`mustCh` character, never a left brace. -/
theorem phMid_chars (i : Nat) : ∀ c ∈ phMidL i, mustCh c = false ∧ c ≠ '\x7b' := by
  intro c hc
  rw [phMidL] at hc
  have hlit : ∀ c ∈ "typopo__exception-".data, mustCh c = false ∧ c ≠ '\x7b' := by
    decide
  rcases List.mem_append.mp hc with hc | hc
  · rcases List.mem_append.mp hc with hc | hc
    · exact hlit c hc
    · have := ph_digits i c hc
      exact ⟨(digit_not_special c this.1 this.2).1,
        (digit_not_special c this.1 this.2).2.1⟩
  · have hcc : c = '\x7d' := by simpa using hc
    subst hcc
    exact ⟨by decide, by decide⟩

/-- No character of a placeholder is a `mustCh` character. -/
theorem ph_chars (i : Nat) : ∀ c ∈ phL i, mustCh c = false := by
  intro c hc
  rw [phL] at hc
  rcases List.mem_cons.mp hc with rfl | hc
  · decide
  · rcases List.mem_cons.mp hc with rfl | hc
    · decide
    · exact (phMid_chars i c hc).1

/-- The placeholder written with its last character split off. -/
theorem phL_concat (i : Nat) : phL i =
    ('\x7b' :: '\x7b' :: ("typopo__exception-".data ++
      natDigits (i + 1) i ++ ['\x7d'])) ++ ['\x7d'] := by
  rw [phL, phMidL]
  simp

/-- Every nonempty suffix of a placeholder contains a right brace. -/
theorem rbrace_in_ph_suffix (i : Nat) :
    ∀ a2, a2 ≠ [] → a2 <:+ phL i → ('\x7d' : Char) ∈ a2 := by
  intro a2 hne hsuf
  obtain ⟨p, hp⟩ := hsuf
  have hlast : a2.getLast? = some '\x7d' := by
    have h1 : (p ++ a2).getLast? = a2.getLast? :=
      List.getLast?_append_of_ne_nil p hne
    rw [hp, phL_concat i, List.getLast?_concat] at h1
    exact h1.symm
  obtain ⟨h, hx⟩ := List.mem_getLast?_eq_getLast (by rw [hlast]; rfl)
  rw [hx]
  exact List.getLast_mem h

/-- The head of the placeholder body is `t`. -/
theorem phMid_cons (i : Nat) : phMidL i =
    't' :: ("ypopo__exception-".data ++ natDigits (i + 1) i ++ ['\x7d', '\x7d']) := by
  rw [phMidL]
  have : "typopo__exception-".data = 't' :: "ypopo__exception-".data := by decide
  rw [this]
  simp

/-- Two digit strings each followed by a right brace and prefix-related
are equal (a right brace is not a digit). -/
theorem digit_stop_eq : ∀ (d1 d2 r1 r2 : List Char),
    (∀ c ∈ d1, 48 ≤ c.toNat ∧ c.toNat ≤ 57) →
    (∀ c ∈ d2, 48 ≤ c.toNat ∧ c.toNat ≤ 57) →
    (d1 ++ '\x7d' :: r1) <+: (d2 ++ '\x7d' :: r2) → d1 = d2 := by
  intro d1
  induction d1 with
  | nil =>
    intro d2 r1 r2 _ hd2 hp
    cases d2 with
    | nil => rfl
    | cons b d2' =>
      exfalso
      simp only [List.nil_append, List.cons_append, List.cons_prefix_cons] at hp
      have hb := hd2 b (by simp)
      have : Char.toNat '\x7d' = 125 := rfl
      rw [← hp.1] at hb
      omega
  | cons a d1' ih =>
    intro d2 r1 r2 hd1 hd2 hp
    cases d2 with
    | nil =>
      exfalso
      simp only [List.nil_append, List.cons_append, List.cons_prefix_cons] at hp
      have ha := hd1 a (by simp)
      have : Char.toNat '\x7d' = 125 := rfl
      rw [hp.1] at ha
      omega
    | cons b d2' =>
      simp only [List.cons_append, List.cons_prefix_cons] at hp
      rw [hp.1, ih d2' r1 r2 (fun c hc => hd1 c (by simp [hc]))
        (fun c hc => hd2 c (by simp [hc])) hp.2]

/-- A placeholder that is a prefix of another placeholder (plus
anything) carries the same number. -/
theorem ph_pref_eq (k j : Nat) (t : List Char) (h : phL k <+: phL j ++ t) :
    k = j := by
  rw [phL, phL] at h
  simp only [List.cons_append] at h
  rw [List.cons_prefix_cons] at h
  obtain ⟨-, h⟩ := h
  rw [List.cons_prefix_cons] at h
  obtain ⟨-, h⟩ := h
  rw [phMidL, phMidL, List.append_assoc, List.append_assoc, List.append_assoc] at h
  have h2 := (List.prefix_append_right_inj "typopo__exception-".data).mp h
  have h3 : (natDigits (k + 1) k ++ '\x7d' :: ['\x7d']) <+:
      (natDigits (j + 1) j ++ '\x7d' :: ('\x7d' :: t)) := by
    simpa using h2
  have hd : natDigits (k + 1) k = natDigits (j + 1) j :=
    digit_stop_eq _ _ _ _ (ph_digits k) (ph_digits j) h3
  have : natToStr k = natToStr j := congrArg String.mk hd
  exact natToStr_inj k j this

/-- A string without right braces but with a `mustCh` character never
begins at a nonempty suffix of a placeholder. -/
theorem no_old_in_ph (old : List Char) (hrb : ('\x7d' : Char) ∉ old)
    (hmust : ∃ c ∈ old, mustCh c = true) (i : Nat) :
    ∀ a2, a2 ≠ [] → a2 <:+ phL i → ∀ t, ¬ old <+: (a2 ++ t) := by
  intro a2 hne hsuf t hpre
  rcases le_or_lt old.length a2.length with hle | hlt
  · have hpo : old <+: a2 :=
      List.prefix_of_prefix_length_le hpre (List.prefix_append a2 t) (by simpa)
    obtain ⟨c, hc, hcm⟩ := hmust
    have hcp : c ∈ phL i := hsuf.subset (hpo.subset hc)
    rw [ph_chars i c hcp] at hcm
    exact absurd hcm (by simp)
  · have hpa : a2 <+: old :=
      List.prefix_of_prefix_length_le (List.prefix_append a2 t) hpre (by omega)
    exact hrb (hpa.subset (rbrace_in_ph_suffix i a2 hne hsuf))

/-- A placeholder never begins at a nonempty suffix of a brace-free
segment. -/
theorem no_ph_in_seg (k : Nat) (s t : List Char) (hs : ('\x7b' : Char) ∉ s) :
    ∀ a2, a2 ≠ [] → a2 <:+ s → ¬ phL k <+: (a2 ++ t) := by
  intro a2 hne hsuf hpre
  cases a2 with
  | nil => exact hne rfl
  | cons c a2' =>
    rw [phL] at hpre
    simp only [List.cons_append, List.cons_prefix_cons] at hpre
    apply hs
    rw [hpre.1]
    exact hsuf.subset (by simp)

/-- The placeholder numbered `k` never begins at a nonempty suffix of a
placeholder with a different number. -/
theorem no_ph_in_ph (k j : Nat) (hkj : k ≠ j) (t : List Char) :
    ∀ a2, a2 ≠ [] → a2 <:+ phL j → ¬ phL k <+: (a2 ++ t) := by
  intro a2 hne hsuf hpre
  rw [phL] at hsuf
  rcases List.suffix_cons_iff.mp hsuf with heq | hsuf2
  · rw [heq] at hpre
    exact hkj (ph_pref_eq k j t (by rw [phL]; exact hpre))
  · rcases List.suffix_cons_iff.mp hsuf2 with heq | hsuf3
    · rw [heq, phMid_cons j, phL] at hpre
      simp only [List.cons_append, List.cons_prefix_cons] at hpre
      exact absurd hpre.2.1 (by decide)
    · cases a2 with
      | nil => exact hne rfl
      | cons c a2' =>
        have hcm : c ∈ phMidL j := hsuf3.subset (by simp)
        rw [phL] at hpre
        simp only [List.cons_append, List.cons_prefix_cons] at hpre
        exact (phMid_chars j c hcm).2 hpre.1.symm

/-- `replaceFirstL` on the empty subject with a nonempty needle. -/
theorem rf_nil (old rep : List Char) (h : old ≠ []) :
    replaceFirstL old rep [] = [] := by
  rw [replaceFirstL, if_neg]
  simp [h]

/-- `replaceFirstL` when the needle matches at the head. -/
theorem rf_pos (old rep : List Char) (c : Char) (t : List Char)
    (h : old <+: c :: t) :
    replaceFirstL old rep (c :: t) = rep ++ (c :: t).drop old.length := by
  rw [replaceFirstL, if_pos (List.isPrefixOf_iff_prefix.mpr h)]

/-- `replaceFirstL` when the needle does not match at the head. -/
theorem rf_neg (old rep : List Char) (c : Char) (t : List Char)
    (h : ¬ old <+: c :: t) :
    replaceFirstL old rep (c :: t) = c :: replaceFirstL old rep t := by
  rw [replaceFirstL, if_neg]
  intro hb
  exact h (List.isPrefixOf_iff_prefix.mp hb)

/-- `replaceFirstL` walks unchanged through a region where the needle
matches at no position. -/
theorem rf_walk (old rep : List Char) :
    ∀ (a t : List Char), (∀ a2, a2 ≠ [] → a2 <:+ a → ¬ old <+: (a2 ++ t)) →
    replaceFirstL old rep (a ++ t) = a ++ replaceFirstL old rep t := by
  intro a
  induction a with
  | nil => intro t _; simp
  | cons c a' ih =>
    intro t h
    rw [List.cons_append, rf_neg old rep c (a' ++ t)
      (h (c :: a') (by simp) (List.suffix_refl _)), ih t
      (fun a2 hne hsuf => h a2 hne (hsuf.trans (List.suffix_cons c a')))]
    rfl

/-- `replaceAllGo` returns the empty subject unchanged. -/
theorem ra_nil (old rep : List Char) : ∀ fuel, replaceAllGo old rep fuel [] = [] := by
  intro fuel
  cases fuel with
  | zero => rfl
  | succ n =>
    rw [replaceAllGo]
    split
    · rename_i hc
      exfalso
      have := List.isPrefixOf_iff_prefix.mp hc.1
      rw [List.prefix_nil] at this
      exact hc.2 this
    · rfl

/-- `replaceAllGo` when the needle matches at the head. -/
theorem ra_pos (old rep : List Char) (fuel : Nat) (s : List Char)
    (h : old <+: s) (hne : old ≠ []) :
    replaceAllGo old rep (fuel + 1) s =
      rep ++ replaceAllGo old rep fuel (s.drop old.length) := by
  cases s with
  | nil =>
    exfalso
    rw [List.prefix_nil] at h
    exact hne h
  | cons c t =>
    rw [replaceAllGo, if_pos ⟨List.isPrefixOf_iff_prefix.mpr h, hne⟩]

/-- `replaceAllGo` when the needle does not match at the head. -/
theorem ra_neg (old rep : List Char) (fuel : Nat) (c : Char) (t : List Char)
    (h : ¬ old <+: c :: t) :
    replaceAllGo old rep (fuel + 1) (c :: t) = c :: replaceAllGo old rep fuel t := by
  rw [replaceAllGo, if_neg]
  intro hb
  exact h (List.isPrefixOf_iff_prefix.mp hb.1)

/-- `replaceAllGo` walks unchanged through a region where the needle
matches at no position, consuming that region's length of fuel. -/
theorem ra_walk (old rep : List Char) :
    ∀ (a t : List Char) (fuel : Nat),
      (∀ a2, a2 ≠ [] → a2 <:+ a → ¬ old <+: (a2 ++ t)) →
      replaceAllGo old rep (a.length + fuel) (a ++ t) =
        a ++ replaceAllGo old rep fuel t := by
  intro a
  induction a with
  | nil => intro t fuel _; simp
  | cons c a' ih =>
    intro t fuel h
    have hl : (c :: a').length + fuel = (a'.length + fuel) + 1 := by
      simp only [List.length_cons]; omega
    rw [hl, List.cons_append, ra_neg old rep (a'.length + fuel) c (a' ++ t)
      (h (c :: a') (by simp) (List.suffix_refl _)), ih t fuel
      (fun a2 hne hsuf => h a2 hne (hsuf.trans (List.suffix_cons c a')))]
    rfl

/-- A chunk list well-formed after a block is well-formed anywhere. -/
theorem chunksWF_of_false (cs : List Chunk) (h : chunksWF false cs) (b : Bool) :
    chunksWF b cs := by
  cases cs with
  | nil => simp [chunksWF]
  | cons hd tl =>
    cases hd with
    | seg s => exact absurd h.1 (by simp)
    | blk i => exact h

/-- Segments of a well-formed chunk list are free of left braces. -/
theorem chunksWF_segs : ∀ (cs : List Chunk) (b : Bool), chunksWF b cs →
    ∀ s, Chunk.seg s ∈ cs → ('\x7b' : Char) ∉ s := by
  intro cs
  induction cs with
  | nil => intro b _ s hs; exact absurd hs (List.not_mem_nil _)
  | cons hd tl ih =>
    intro b hwf s hs
    cases hd with
    | seg u =>
      rcases List.mem_cons.mp hs with heq | hs
      · cases heq; exact hwf.2.1
      · exact ih false hwf.2.2 s hs
    | blk i =>
      rcases List.mem_cons.mp hs with heq | hs
      · exact absurd heq (by simp)
      · exact ih true hwf s hs

/-- `consSeg` renders as a cons. -/
theorem renderC_consSeg (c : Char) (cs : List Chunk) :
    renderC (consSeg c cs) = c :: renderC cs := by
  cases cs with
  | nil => simp [consSeg, renderC]
  | cons hd tl =>
    cases hd with
    | seg u => simp [consSeg, renderC]
    | blk i => simp [consSeg, renderC]

/-- `consSeg` unmasks as a cons. -/
theorem unmaskF_consSeg (f : Nat → List Char) (c : Char) (cs : List Chunk) :
    unmaskF f (consSeg c cs) = c :: unmaskF f cs := by
  cases cs with
  | nil => simp [consSeg, unmaskF]
  | cons hd tl =>
    cases hd with
    | seg u => simp [consSeg, unmaskF]
    | blk i => simp [consSeg, unmaskF]

/-- `consSeg` keeps the block numbers. -/
theorem blkIdxs_consSeg (c : Char) (cs : List Chunk) :
    blkIdxs (consSeg c cs) = blkIdxs cs := by
  cases cs with
  | nil => simp [consSeg, blkIdxs]
  | cons hd tl =>
    cases hd with
    | seg u => simp [consSeg, blkIdxs]
    | blk i => simp [consSeg, blkIdxs]

/-- `consSeg` preserves well-formedness for a brace-free character. -/
theorem chunksWF_consSeg (c : Char) (hc : c ≠ '\x7b') :
    ∀ cs, chunksWF true cs → chunksWF true (consSeg c cs) := by
  intro cs hwf
  cases cs with
  | nil =>
    refine ⟨rfl, ?_, trivial⟩
    intro hm
    rcases List.mem_singleton.mp hm with rfl
    exact hc rfl
  | cons hd tl =>
    cases hd with
    | seg u =>
      refine ⟨rfl, ?_, hwf.2.2⟩
      intro hm
      rcases List.mem_cons.mp hm with heq | hm
      · exact hc heq.symm
      · exact hwf.2.1 hm
    | blk i =>
      refine ⟨rfl, ?_, hwf⟩
      intro hm
      rcases List.mem_singleton.mp hm with rfl
      exact hc rfl

/-- One masking step on a well-formed ledger: replacing the first
occurrence of a brace-free needle containing a `mustCh` character by
the placeholder `k` yields a well-formed ledger again, unmasking it
with any assignment that sends `k` to the needle undoes the step, and
the only possibly new block number is `k`. -/
theorem mask_step (old : List Char) (k : Nat)
    (hlb : ('\x7b' : Char) ∉ old) (hrb : ('\x7d' : Char) ∉ old)
    (hmust : ∃ c ∈ old, mustCh c = true) :
    ∀ (cs : List Chunk) (b : Bool), chunksWF b cs →
    ∃ cs2, chunksWF b cs2 ∧
      replaceFirstL old (phL k) (renderC cs) = renderC cs2 ∧
      (∀ f : Nat → List Char, f k = old → unmaskF f cs2 = unmaskF f cs) ∧
      (∀ i, i ∈ blkIdxs cs2 → i ∈ blkIdxs cs ∨ i = k) := by
  have hne : old ≠ [] := by
    obtain ⟨c, hc, -⟩ := hmust
    intro h; rw [h] at hc; exact absurd hc (List.not_mem_nil c)
  intro cs
  induction cs with
  | nil =>
    intro b _
    refine ⟨[], by simp [chunksWF], ?_, by simp, ?_⟩
    · show replaceFirstL old (phL k) [] = []
      exact rf_nil old (phL k) hne
    · intro i hi
      exact absurd hi (List.not_mem_nil i)
  | cons hd tl ih =>
    cases hd with
    | blk i =>
      intro b hwf
      obtain ⟨cs2, hwf2, hrw, hum, hidx⟩ := ih true hwf
      refine ⟨Chunk.blk i :: cs2, hwf2, ?_, ?_, ?_⟩
      · show replaceFirstL old (phL k) (phL i ++ renderC tl) = phL i ++ renderC cs2
        rw [rf_walk old (phL k) (phL i) (renderC tl)
          (fun a2 hne2 hsuf => no_old_in_ph old hrb hmust i a2 hne2 hsuf (renderC tl)),
          hrw]
      · intro f hf
        show f i ++ unmaskF f cs2 = f i ++ unmaskF f tl
        rw [hum f hf]
      · intro j hj
        rcases List.mem_cons.mp hj with rfl | hj
        · exact Or.inl (List.mem_cons_self j (blkIdxs tl))
        · rcases hidx j hj with h | h
          · exact Or.inl (List.mem_cons_of_mem i h)
          · exact Or.inr h
    | seg s =>
      induction s with
      | nil =>
        intro b hwf
        obtain ⟨hb, -, htl⟩ := hwf
        obtain ⟨cs2, hwf2, hrw, hum, hidx⟩ := ih false htl
        refine ⟨cs2, chunksWF_of_false cs2 hwf2 b, ?_, ?_, ?_⟩
        · show replaceFirstL old (phL k) ([] ++ renderC tl) = renderC cs2
          rw [List.nil_append, hrw]
        · intro f hf
          show unmaskF f cs2 = [] ++ unmaskF f tl
          rw [List.nil_append, hum f hf]
        · exact hidx
      | cons c t ihs =>
        intro b hwf
        obtain ⟨hb, hcs, htl⟩ := hwf
        subst hb
        have hct : c ≠ '\x7b' := fun h => hcs (h ▸ List.mem_cons_self c t)
        have hts : ('\x7b' : Char) ∉ t := fun h => hcs (List.mem_cons_of_mem c h)
        by_cases hp : old <+: ((c :: t) ++ renderC tl)
        · have hfit : old <+: c :: t := by
            rcases le_or_lt old.length (c :: t).length with hle | hlt
            · exact List.prefix_of_prefix_length_le hp
                (List.prefix_append (c :: t) (renderC tl)) hle
            · exfalso
              have hst : (c :: t) <+: old :=
                List.prefix_of_prefix_length_le
                  (List.prefix_append (c :: t) (renderC tl)) hp (by omega)
              obtain ⟨old2, hold2⟩ := hst
              have hne2 : old2 ≠ [] := by
                intro h
                rw [h, List.append_nil] at hold2
                rw [← hold2] at hlt
                omega
              have hpre2 : old2 <+: renderC tl := by
                rw [← hold2] at hp
                exact (List.prefix_append_right_inj (c :: t)).mp hp
              cases tl with
              | nil =>
                simp only [renderC, List.prefix_nil] at hpre2
                exact hne2 hpre2
              | cons hd2 tl2 =>
                cases hd2 with
                | seg u => exact absurd htl.1 (by simp)
                | blk j =>
                  cases old2 with
                  | nil => exact hne2 rfl
                  | cons d od =>
                    have : d = '\x7b' := by
                      simp only [renderC] at hpre2
                      rw [phL, List.cons_append, List.cons_prefix_cons] at hpre2
                      exact hpre2.1
                    apply hlb
                    rw [← hold2]
                    exact List.mem_append_right (c :: t) (this ▸ List.mem_cons_self d od)
          obtain ⟨s2, hs2⟩ := hfit
          refine ⟨Chunk.blk k :: Chunk.seg s2 :: tl, ?_, ?_, ?_, ?_⟩
          · refine ⟨rfl, ?_, htl⟩
            intro hm
            apply hcs
            rw [← hs2]
            exact List.mem_append_right old hm
          · show replaceFirstL old (phL k) ((c :: t) ++ renderC tl) =
              phL k ++ (s2 ++ renderC tl)
            have hsub : (c :: t) ++ renderC tl = old ++ (s2 ++ renderC tl) := by
              rw [← hs2, List.append_assoc]
            rw [List.cons_append, rf_pos old (phL k) c (t ++ renderC tl)
              (by rw [← List.cons_append]; exact hp)]
            rw [← List.cons_append, hsub, List.drop_left]
          · intro f hf
            show f k ++ (s2 ++ unmaskF f tl) = (c :: t) ++ unmaskF f tl
            rw [hf, ← hs2, List.append_assoc]
          · intro j hj
            rcases List.mem_cons.mp hj with rfl | hj
            · exact Or.inr rfl
            · exact Or.inl hj
        · obtain ⟨cs2, hwf2, hrw, hum, hidx⟩ := ihs true ⟨rfl, hts, htl⟩
          refine ⟨consSeg c cs2, chunksWF_consSeg c hct cs2 hwf2, ?_, ?_, ?_⟩
          · show replaceFirstL old (phL k) ((c :: t) ++ renderC tl) =
              renderC (consSeg c cs2)
            rw [List.cons_append, rf_neg old (phL k) c (t ++ renderC tl)
              (by rw [List.cons_append] at hp; exact hp)]
            rw [renderC_consSeg]
            have : replaceFirstL old (phL k) (t ++ renderC tl) = renderC cs2 := hrw
            rw [this]
          · intro f hf
            rw [unmaskF_consSeg]
            show c :: unmaskF f cs2 = (c :: t) ++ unmaskF f tl
            rw [hum f hf]
            rfl
          · intro j hj
            rw [blkIdxs_consSeg] at hj
            exact hidx j hj

/-- The scan of `str.replace` over a rendered ledger: every occurrence
of the placeholder `k` is a block numbered `k`, so the replacement
turns exactly those blocks into segments `e`. -/
theorem restore_go (k : Nat) (e : List Char) :
    ∀ (cs : List Chunk) (fuel : Nat),
      (∀ s, Chunk.seg s ∈ cs → ('\x7b' : Char) ∉ s) →
      replaceAllGo (phL k) e ((renderC cs).length + fuel) (renderC cs) =
        renderC (cs.map (replaceBlkC k e)) := by
  intro cs
  induction cs with
  | nil =>
    intro fuel _
    exact ra_nil (phL k) e _
  | cons hd tl ih =>
    intro fuel hsegs
    cases hd with
    | seg s =>
      have hlen : (renderC (Chunk.seg s :: tl)).length + fuel =
          s.length + ((renderC tl).length + fuel) := by
        simp only [renderC, List.length_append]
        omega
      rw [hlen]
      show replaceAllGo (phL k) e _ (s ++ renderC tl) = _
      rw [ra_walk (phL k) e s (renderC tl) ((renderC tl).length + fuel)
        (no_ph_in_seg k s (renderC tl) (hsegs s (List.mem_cons_self _ _))),
        ih fuel (fun u hu => hsegs u (List.mem_cons_of_mem _ hu))]
      rfl
    | blk j =>
      by_cases hjk : j = k
      · subst hjk
        have hlen : (renderC (Chunk.blk j :: tl)).length + fuel =
            ((phMidL j).length + 1 + ((renderC tl).length + fuel)) + 1 := by
          simp only [renderC, phL, List.length_append, List.length_cons]
          omega
        rw [hlen]
        show replaceAllGo (phL j) e _ (phL j ++ renderC tl) = _
        rw [ra_pos (phL j) e _ (phL j ++ renderC tl)
          (List.prefix_append (phL j) (renderC tl)) (by simp [phL]),
          List.drop_left]
        have hm : (phMidL j).length + 1 + ((renderC tl).length + fuel) =
            (renderC tl).length + ((phMidL j).length + 1 + fuel) := by omega
        rw [hm, ih ((phMidL j).length + 1 + fuel)
          (fun u hu => hsegs u (List.mem_cons_of_mem _ hu))]
        show e ++ renderC (List.map (replaceBlkC j e) tl) = _
        have : replaceBlkC j e (Chunk.blk j) = Chunk.seg e := by
          simp [replaceBlkC]
        simp only [List.map_cons, this, renderC]
      · have hlen : (renderC (Chunk.blk j :: tl)).length + fuel =
            (phL j).length + ((renderC tl).length + fuel) := by
          simp only [renderC, List.length_append]
          omega
        rw [hlen]
        show replaceAllGo (phL k) e _ (phL j ++ renderC tl) = _
        rw [ra_walk (phL k) e (phL j) (renderC tl) ((renderC tl).length + fuel)
          (no_ph_in_ph k j (fun h => hjk h.symm) (renderC tl)),
          ih fuel (fun u hu => hsegs u (List.mem_cons_of_mem _ hu))]
        have : replaceBlkC k e (Chunk.blk j) = Chunk.blk j := by
          simp [replaceBlkC, hjk]
        simp only [List.map_cons, this, renderC]

/-- Python `str.replace` of the placeholder `k` on a rendered ledger. -/
theorem restore_step (k : Nat) (e : List Char) (cs : List Chunk)
    (hsegs : ∀ s, Chunk.seg s ∈ cs → ('\x7b' : Char) ∉ s) :
    replaceAllL (phL k) e (renderC cs) = renderC (cs.map (replaceBlkC k e)) := by
  rw [replaceAllL]
  exact restore_go k e cs 1 hsegs

/-- Destructor for a successful ordered choice. -/
theorem orElse_eq_some' {α : Type} (x y : Option α) (r : α)
    (h : (x <|> y) = some r) : x = some r ∨ y = some r := by
  cases x with
  | none => right; simpa using h
  | some a => left; simpa using h

/-- Consumption analysis of the backtracking matcher: a successful run
splits the subject into a consumed part `u` and a remainder passed to
the continuation; every consumed character passes `alphaOK`, and when
`mustHas` holds some consumed character satisfies `mustCh`. -/
theorem reMatch_rest (ci : Bool) : ∀ (fuel : Nat) (re : RE) (prev : Option Char)
    (rest : List Char) (caps : Caps)
    (k : Option Char → List Char → Caps → Option (List Char × Caps))
    (res : List Char × Caps),
    reMatch ci fuel re prev rest caps k = some res →
    ∃ u v prev2 caps2, rest = u ++ v ∧ k prev2 v caps2 = some res ∧
      (∀ c ∈ u, alphaOK ci c re = true) ∧
      (mustHas re = true → ∃ c ∈ u, mustCh c = true) := by
  intro fuel
  induction fuel with
  | zero =>
    intro re prev rest caps k res h
    exact absurd h (by simp [reMatch])
  | succ n ih =>
    intro re prev rest caps k res h
    cases re with
    | eps =>
      rw [reMatch] at h
      exact ⟨[], rest, prev, caps, rfl, h, by simp, by simp [mustHas]⟩
    | cls neg items =>
      cases rest with
      | nil =>
        rw [reMatch] at h
        exact absurd h (by simp)
      | cons c rs =>
        rw [reMatch] at h
        split at h
        · rename_i hcm
          refine ⟨[c], rs, some c, caps, rfl, h, ?_, ?_⟩
          · intro d hd
            rcases List.mem_singleton.mp hd with rfl
            exact hcm
          · intro hm
            rw [mustHas] at hm
            exact ⟨c, List.mem_singleton.mpr rfl, clsMust_sound ci neg items c hm hcm⟩
        · exact absurd h (by simp)
    | dot dotAll =>
      cases rest with
      | nil =>
        rw [reMatch] at h
        exact absurd h (by simp)
      | cons c rs =>
        rw [reMatch] at h
        split at h
        · refine ⟨[c], rs, some c, caps, rfl, h, ?_, by simp [mustHas]⟩
          intro d hd
          rcases List.mem_singleton.mp hd with rfl
          simp [alphaOK]
        · exact absurd h (by simp)
    | cat a b =>
      rw [reMatch] at h
      obtain ⟨u1, v1, p1, c1, hrest, hk1, ha1, hm1⟩ := ih a prev rest caps _ res h
      obtain ⟨u2, v2, p2, c2, hv1, hk2, ha2, hm2⟩ := ih b p1 v1 c1 k res hk1
      refine ⟨u1 ++ u2, v2, p2, c2, by rw [hrest, hv1, List.append_assoc], hk2, ?_, ?_⟩
      · intro c hc
        simp only [alphaOK, Bool.or_eq_true]
        rcases List.mem_append.mp hc with h' | h'
        · exact Or.inl (ha1 c h')
        · exact Or.inr (ha2 c h')
      · intro hm
        simp only [mustHas, Bool.or_eq_true] at hm
        rcases hm with hm | hm
        · obtain ⟨c, hc, hcm⟩ := hm1 hm
          exact ⟨c, List.mem_append_left u2 hc, hcm⟩
        · obtain ⟨c, hc, hcm⟩ := hm2 hm
          exact ⟨c, List.mem_append_right u1 hc, hcm⟩
    | alt a b =>
      rw [reMatch] at h
      rcases orElse_eq_some' _ _ _ h with h' | h'
      · obtain ⟨u, v, p2, c2, hrest, hk, ha, hm⟩ := ih a prev rest caps k res h'
        refine ⟨u, v, p2, c2, hrest, hk, ?_, ?_⟩
        · intro c hc
          simp only [alphaOK, Bool.or_eq_true]
          exact Or.inl (ha c hc)
        · intro hmm
          simp only [mustHas, Bool.and_eq_true] at hmm
          exact hm hmm.1
      · obtain ⟨u, v, p2, c2, hrest, hk, ha, hm⟩ := ih b prev rest caps k res h'
        refine ⟨u, v, p2, c2, hrest, hk, ?_, ?_⟩
        · intro c hc
          simp only [alphaOK, Bool.or_eq_true]
          exact Or.inr (ha c hc)
        · intro hmm
          simp only [mustHas, Bool.and_eq_true] at hmm
          exact hm hmm.2
    | grp i a =>
      rw [reMatch] at h
      obtain ⟨u, v, p2, c2, hrest, hk, ha, hm⟩ := ih a prev rest caps _ res h
      refine ⟨u, v, p2, (i, rest.take (rest.length - v.length)) :: c2, hrest, hk, ?_, ?_⟩
      · intro c hc
        simp only [alphaOK]
        exact ha c hc
      · intro hmm
        simp only [mustHas] at hmm
        exact hm hmm
    | wordB pos =>
      rw [reMatch] at h
      split at h
      · exact ⟨[], rest, prev, caps, rfl, h, by simp, by simp [mustHas]⟩
      · exact absurd h (by simp)
    | bol ml =>
      rw [reMatch] at h
      split at h
      · exact ⟨[], rest, prev, caps, rfl, h, by simp, by simp [mustHas]⟩
      · exact absurd h (by simp)
    | eol ml =>
      rw [reMatch] at h
      split at h
      · exact ⟨[], rest, prev, caps, rfl, h, by simp, by simp [mustHas]⟩
      · exact absurd h (by simp)
    | rep lo hi lz a =>
      cases lo with
      | succ lo' =>
        rw [reMatch] at h
        obtain ⟨u1, v1, p1, c1, hrest, hk1, ha1, hm1⟩ := ih a prev rest caps _ res h
        obtain ⟨u2, v2, p2, c2, hv1, hk2, ha2, hm2⟩ :=
          ih (RE.rep lo' (hi.map (fun m => m - 1)) lz a) p1 v1 c1 k res hk1
        refine ⟨u1 ++ u2, v2, p2, c2, by rw [hrest, hv1, List.append_assoc], hk2, ?_, ?_⟩
        · intro c hc
          simp only [alphaOK]
          rcases List.mem_append.mp hc with h' | h'
          · exact ha1 c h'
          · have := ha2 c h'
            simpa only [alphaOK] using this
        · intro hm
          simp only [mustHas, Bool.and_eq_true, decide_eq_true_eq] at hm
          obtain ⟨c, hc, hcm⟩ := hm1 hm.2
          exact ⟨c, List.mem_append_left u2 hc, hcm⟩
      | zero =>
        have hkcase : k prev rest caps = some res →
            ∃ u v prev2 caps2, rest = u ++ v ∧ k prev2 v caps2 = some res ∧
              (∀ c ∈ u, alphaOK ci c (RE.rep 0 hi lz a) = true) ∧
              (mustHas (RE.rep 0 hi lz a) = true → ∃ c ∈ u, mustCh c = true) := by
          intro h'
          exact ⟨[], rest, prev, caps, rfl, h', by simp, by simp [mustHas]⟩
        have hmore : reMatch ci n a prev rest caps (fun p r cp =>
            reMatch ci n (RE.rep 0 (hi.map (fun m => m - 1)) lz a) p r cp k) = some res →
            ∃ u v prev2 caps2, rest = u ++ v ∧ k prev2 v caps2 = some res ∧
              (∀ c ∈ u, alphaOK ci c (RE.rep 0 hi lz a) = true) ∧
              (mustHas (RE.rep 0 hi lz a) = true → ∃ c ∈ u, mustCh c = true) := by
          intro h'
          obtain ⟨u1, v1, p1, c1, hrest, hk1, ha1, hm1⟩ := ih a prev rest caps _ res h'
          obtain ⟨u2, v2, p2, c2, hv1, hk2, ha2, hm2⟩ :=
            ih (RE.rep 0 (hi.map (fun m => m - 1)) lz a) p1 v1 c1 k res hk1
          refine ⟨u1 ++ u2, v2, p2, c2, by rw [hrest, hv1, List.append_assoc], hk2, ?_, ?_⟩
          · intro c hc
            simp only [alphaOK]
            rcases List.mem_append.mp hc with h' | h'
            · exact ha1 c h'
            · have := ha2 c h'
              simpa only [alphaOK] using this
          · intro hm
            simp only [mustHas, Bool.and_eq_true, decide_eq_true_eq] at hm
            omega
        cases hi with
        | none =>
          rw [reMatch] at h
          rotate_left
          · simp
          split at h
          · rcases orElse_eq_some' _ _ _ h with h' | h'
            · exact hkcase h'
            · exact hmore h'
          · rcases orElse_eq_some' _ _ _ h with h' | h'
            · exact hmore h'
            · exact hkcase h'
        | some m =>
          cases m with
          | zero =>
            rw [reMatch] at h
            exact hkcase h
          | succ m' =>
            rw [reMatch] at h
            rotate_left
            · simp
            split at h
            · rcases orElse_eq_some' _ _ _ h with h' | h'
              · exact hkcase h'
              · exact hmore h'
            · rcases orElse_eq_some' _ _ _ h with h' | h'
              · exact hmore h'
              · exact hkcase h'

/-- The characters consumed by a successful `matchAt` satisfy the
conservative character analyses. -/
theorem matchAt_take (p : Pat) (prev : Option Char) (todo : List Char)
    (n : Nat) (cp : Caps) (h : matchAt p prev todo = some (n, cp)) :
    (∀ c ∈ todo.take n, alphaOK p.ci c p.re = true) ∧
      (mustHas p.re = true → ∃ c ∈ todo.take n, mustCh c = true) := by
  rw [matchAt] at h
  split at h
  · exact absurd h (by simp)
  · rename_i r cp' heq
    obtain ⟨u, v, p2, c2, hrest, hk, ha, hm⟩ :=
      reMatch_rest p.ci _ p.re prev todo [] _ _ heq
    have h3 : (v, c2) = (r, cp') := Option.some.inj (hk : some (v, c2) = some (r, cp'))
    have hv : v = r := congrArg Prod.fst h3
    have h4 : (todo.length - r.length, cp') = (n, cp) := Option.some.inj h
    have hn : n = todo.length - r.length := (congrArg Prod.fst h4).symm
    have hlen : n = u.length := by
      rw [hn, ← hv, hrest, List.length_append]
      omega
    have htake : todo.take n = u := by
      rw [hrest, hlen, List.take_left]
    rw [htake]
    exact ⟨ha, hm⟩

/-- Unfolding of one `finditer` step. -/
theorem findLoop_succ (p : Pat) (n pos : Nat) (prev : Option Char) (todo : List Char) :
    findLoop p (n + 1) pos prev todo =
      match matchAt p prev todo with
      | some (nn + 1, _) =>
        (pos, pos + (nn + 1), todo.take (nn + 1)) ::
          findLoop p n (pos + (nn + 1)) (todo.take (nn + 1)).getLast? (todo.drop (nn + 1))
      | some (0, _) =>
        match todo with
        | [] => [(pos, pos, [])]
        | c :: t => (pos, pos, []) :: findLoop p n (pos + 1) (some c) t
      | none =>
        match todo with
        | [] => []
        | c :: t => findLoop p n (pos + 1) (some c) t := rfl

/-- Every match of `finditer` consists of `alphaOK` characters and,
when `mustHas` holds, contains a `mustCh` character. -/
theorem findLoop_elem (p : Pat) :
    ∀ (fuel pos : Nat) (prev : Option Char) (todo : List Char)
      (s e : Nat) (m : List Char), (s, e, m) ∈ findLoop p fuel pos prev todo →
      (∀ c ∈ m, alphaOK p.ci c p.re = true) ∧
        (mustHas p.re = true → ∃ c ∈ m, mustCh c = true) := by
  intro fuel
  induction fuel with
  | zero =>
    intro pos prev todo s e m hm
    exact absurd hm (by simp [findLoop])
  | succ n ih =>
    intro pos prev todo s e m hm
    rw [findLoop_succ] at hm
    split at hm
    · rename_i nn cp heq
      rcases List.mem_cons.mp hm with heq2 | hm2
      · have hmm : m = todo.take (nn + 1) := congrArg (fun x => x.2.2) heq2
        rw [hmm]
        exact matchAt_take p prev todo (nn + 1) cp heq
      · exact ih _ _ _ _ _ _ hm2
    · rename_i cp heq
      have hz := matchAt_take p prev todo 0 cp heq
      cases todo with
      | nil =>
        rcases List.mem_singleton.mp hm with heq2
        have hmm : m = [] := congrArg (fun x => x.2.2) heq2
        rw [hmm]
        exact ⟨by simp, fun hmu => hz.2 hmu⟩
      | cons c t =>
        rcases List.mem_cons.mp hm with heq2 | hm2
        · have hmm : m = [] := congrArg (fun x => x.2.2) heq2
          rw [hmm]
          exact ⟨by simp, fun hmu => hz.2 hmu⟩
        · exact ih _ _ _ _ _ _ hm2
    · cases todo with
      | nil => exact absurd hm (by simp)
      | cons c t => exact ih _ _ _ _ _ _ hm

/-- Membership through stable insertion. -/
theorem insSorted_mem {α : Type} (le : α → α → Bool) (x y : α) :
    ∀ l : List α, y ∈ insSorted le x l → y = x ∨ y ∈ l := by
  intro l
  induction l with
  | nil =>
    intro h
    rcases List.mem_singleton.mp h with rfl
    exact Or.inl rfl
  | cons z zs ih =>
    intro h
    rw [insSorted] at h
    split at h
    · rcases List.mem_cons.mp h with rfl | h2
      · exact Or.inr (List.mem_cons_self _ _)
      · rcases ih h2 with h3 | h3
        · exact Or.inl h3
        · exact Or.inr (List.mem_cons_of_mem z h3)
    · rcases List.mem_cons.mp h with rfl | h2
      · exact Or.inl rfl
      · exact Or.inr h2

/-- Membership through the stable sort. -/
theorem pySort_mem {α : Type} (le : α → α → Bool) (y : α) :
    ∀ l : List α, y ∈ pySort le l → y ∈ l := by
  intro l
  induction l with
  | nil => intro h; exact absurd h (by simp [pySort])
  | cons z zs ih =>
    intro h
    rw [pySort] at h
    rcases insSorted_mem le z y (pySort le zs) h with rfl | h2
    · exact List.mem_cons_self _ _
    · exact List.mem_cons_of_mem z (ih h2)

/-- Membership through the overlap filter. -/
theorem overlapGo_mem : ∀ (l : List (Nat × Nat × String)) (acc : List String)
    (cov : List (Nat × Nat)) (e : String),
    e ∈ overlapGo l acc cov → e ∈ acc ∨ ∃ s en, (s, en, e) ∈ l := by
  intro l
  induction l with
  | nil =>
    intro acc cov e h
    exact Or.inl h
  | cons hd tl ih =>
    intro acc cov e h
    obtain ⟨s, en, m⟩ := hd
    rw [overlapGo] at h
    split at h
    · rcases ih _ _ _ h with h2 | ⟨s2, en2, h2⟩
      · exact Or.inl h2
      · exact Or.inr ⟨s2, en2, List.mem_cons_of_mem _ h2⟩
    · rcases ih _ _ _ h with h2 | ⟨s2, en2, h2⟩
      · rcases List.mem_append.mp h2 with h3 | h3
        · exact Or.inl h3
        · rcases List.mem_singleton.mp h3 with rfl
          exact Or.inr ⟨s, en, List.mem_cons_self _ _⟩
      · exact Or.inr ⟨s2, en2, List.mem_cons_of_mem _ h2⟩

set_option maxRecDepth 10000 in
/-- The email pattern must consume a `mustCh` character and can
consume no brace. -/
theorem email_facts : mustHas EMAIL_RE.re = true ∧
    alphaOK EMAIL_RE.ci '\x7b' EMAIL_RE.re = false ∧
    alphaOK EMAIL_RE.ci '\x7d' EMAIL_RE.re = false := by
  decide

set_option maxRecDepth 40000 in
set_option maxHeartbeats 1000000 in
/-- The URL pattern must consume a `mustCh` character and can consume
no brace. -/
theorem url_facts : mustHas URL_RE.re = true ∧
    alphaOK URL_RE.ci '\x7b' URL_RE.re = false ∧
    alphaOK URL_RE.ci '\x7d' URL_RE.re = false := by
  decide

set_option maxRecDepth 20000 in
/-- The filename pattern must consume a `mustCh` character and can
consume no brace. -/
theorem filename_facts : mustHas FILENAME_RE.re = true ∧
    alphaOK FILENAME_RE.ci '\x7b' FILENAME_RE.re = false ∧
    alphaOK FILENAME_RE.ci '\x7d' FILENAME_RE.re = false := by
  decide

/-- Every collected exception string is brace-free and contains a dot
or an at sign. -/
theorem exceptions_good (text : String) : ∀ e ∈ (exclude_exceptions text).exceptions,
    ('\x7b' : Char) ∉ e.data ∧ ('\x7d' : Char) ∉ e.data ∧
      ∃ c ∈ e.data, mustCh c = true := by
  intro e he
  have he2 : e ∈ overlapGo (pySort matchLe
      ((pyFindIter EMAIL_RE text).map (fun r => (r.1, r.2.1, String.mk r.2.2)) ++
       (pyFindIter URL_RE text).map (fun r => (r.1, r.2.1, String.mk r.2.2)) ++
       (pyFindIter FILENAME_RE text).map (fun r => (r.1, r.2.1, String.mk r.2.2))))
      [] [] := he
  rcases overlapGo_mem _ _ _ _ he2 with h | ⟨s, en, h⟩
  · exact absurd h (by simp)
  · have h2 := pySort_mem matchLe _ _ h
    have key : ∀ (p : Pat), mustHas p.re = true →
        alphaOK p.ci '\x7b' p.re = false → alphaOK p.ci '\x7d' p.re = false →
        (s, en, e) ∈ (pyFindIter p text).map (fun r => (r.1, r.2.1, String.mk r.2.2)) →
        ('\x7b' : Char) ∉ e.data ∧ ('\x7d' : Char) ∉ e.data ∧
          ∃ c ∈ e.data, mustCh c = true := by
      intro p hmu hlb hrb hmem
      obtain ⟨r, hr, hre⟩ := List.mem_map.mp hmem
      obtain ⟨r1, r2, r3⟩ := r
      have hed : e.data = r3 := by
        have : String.mk r3 = e := congrArg (fun x => x.2.2) hre
        rw [← this]
      have helem := findLoop_elem p _ _ _ _ r1 r2 r3 hr
      refine ⟨?_, ?_, ?_⟩
      · intro hc
        rw [hed] at hc
        have := helem.1 _ hc
        rw [hlb] at this
        exact absurd this (by simp)
      · intro hc
        rw [hed] at hc
        have := helem.1 _ hc
        rw [hrb] at this
        exact absurd this (by simp)
      · rw [hed]
        exact helem.2 hmu
    rcases List.mem_append.mp h2 with h3 | h3
    · rcases List.mem_append.mp h3 with h4 | h4
      · exact key EMAIL_RE email_facts.1 email_facts.2.1 email_facts.2.2 h4
      · exact key URL_RE url_facts.1 url_facts.2.1 url_facts.2.2 h4
    · exact key FILENAME_RE filename_facts.1 filename_facts.2.1 filename_facts.2.2 h3

/-- A ledger without blocks unmasks to its rendering. -/
theorem unmaskF_noblk (f : Nat → List Char) :
    ∀ cs : List Chunk, (∀ i, i ∈ blkIdxs cs → False) → unmaskF f cs = renderC cs := by
  intro cs
  induction cs with
  | nil => intro _; rfl
  | cons hd tl ih =>
    intro h
    cases hd with
    | seg s =>
      show s ++ _ = s ++ _
      rw [ih (fun i hi => h i hi)]
    | blk i => exact absurd (List.mem_cons_self i (blkIdxs tl)) (h i)

/-- Unmasking after one restore step agrees with unmasking before it
when the assignments agree accordingly. -/
theorem unmaskF_replaceBlk (k : Nat) (e : List Char) (f f2 : Nat → List Char)
    (hk : f2 k = e) :
    ∀ cs : List Chunk, (∀ i, i ∈ blkIdxs cs → i ≠ k → f i = f2 i) →
    unmaskF f (cs.map (replaceBlkC k e)) = unmaskF f2 cs := by
  intro cs
  induction cs with
  | nil => intro _; rfl
  | cons hd tl ih =>
    intro h
    cases hd with
    | seg s =>
      show s ++ _ = s ++ _
      exact congrArg (s ++ ·) (ih (fun i hi hik => h i hi hik))
    | blk i =>
      by_cases hik : i = k
      · subst hik
        show unmaskF f (replaceBlkC i e (Chunk.blk i) :: _) = f2 i ++ _
        rw [show replaceBlkC i e (Chunk.blk i) = Chunk.seg e from by simp [replaceBlkC]]
        show e ++ _ = f2 i ++ _
        rw [hk, ih (fun j hj hjk => h j (List.mem_cons_of_mem i hj) hjk)]
      · show unmaskF f (replaceBlkC k e (Chunk.blk i) :: _) = f2 i ++ _
        rw [show replaceBlkC k e (Chunk.blk i) = Chunk.blk i from by simp [replaceBlkC, hik]]
        show f i ++ _ = f2 i ++ _
        rw [h i (List.mem_cons_self i (blkIdxs tl)) hik,
          ih (fun j hj hjk => h j (List.mem_cons_of_mem i hj) hjk)]

/-- Block numbers after one restore step: the restored number is gone,
no number appears. -/
theorem blkIdxs_replaceBlk (k : Nat) (e : List Char) :
    ∀ cs : List Chunk, ∀ i, i ∈ blkIdxs (cs.map (replaceBlkC k e)) →
      i ∈ blkIdxs cs ∧ i ≠ k := by
  intro cs
  induction cs with
  | nil => intro i hi; exact absurd hi (by simp [blkIdxs])
  | cons hd tl ih =>
    intro i hi
    cases hd with
    | seg s =>
      have : blkIdxs (List.map (replaceBlkC k e) (Chunk.seg s :: tl)) =
          blkIdxs (List.map (replaceBlkC k e) tl) := rfl
      rw [this] at hi
      exact ⟨(ih i hi).1, (ih i hi).2⟩
    | blk j =>
      by_cases hjk : j = k
      · subst hjk
        have : blkIdxs (List.map (replaceBlkC j e) (Chunk.blk j :: tl)) =
            blkIdxs (List.map (replaceBlkC j e) tl) := by
          simp [replaceBlkC, blkIdxs]
        rw [this] at hi
        exact ⟨List.mem_cons_of_mem j (ih i hi).1, (ih i hi).2⟩
      · have : blkIdxs (List.map (replaceBlkC k e) (Chunk.blk j :: tl)) =
            j :: blkIdxs (List.map (replaceBlkC k e) tl) := by
          simp [replaceBlkC, hjk, blkIdxs]
        rw [this] at hi
        rcases List.mem_cons.mp hi with rfl | hi2
        · exact ⟨List.mem_cons_self i (blkIdxs tl), hjk⟩
        · exact ⟨List.mem_cons_of_mem j (ih i hi2).1, (ih i hi2).2⟩

/-- Segments stay brace-free through one restore step. -/
theorem segs_replaceBlk (k : Nat) (e : List Char) (he : ('\x7b' : Char) ∉ e)
    (cs : List Chunk) (h : ∀ s, Chunk.seg s ∈ cs → ('\x7b' : Char) ∉ s) :
    ∀ s, Chunk.seg s ∈ cs.map (replaceBlkC k e) → ('\x7b' : Char) ∉ s := by
  intro s hs
  obtain ⟨ch, hch, hche⟩ := List.mem_map.mp hs
  cases ch with
  | seg u =>
    have hu : u = s := by
      have : Chunk.seg u = Chunk.seg s := hche
      cases this; rfl
    rw [← hu]
    exact h u hch
  | blk j =>
    by_cases hjk : j = k
    · subst hjk
      have : Chunk.seg e = Chunk.seg s := by
        rw [show replaceBlkC j e (Chunk.blk j) = Chunk.seg e from by simp [replaceBlkC]] at hche
        exact hche
      cases this
      exact he
    · rw [show replaceBlkC k e (Chunk.blk j) = Chunk.blk j from by
        simp [replaceBlkC, hjk]] at hche
      exact absurd hche (by simp)

/-- The restore loop of `place_exceptions` over a rendered ledger
substitutes the exceptions for the blocks. -/
theorem restore_loop : ∀ (es : List String) (k : Nat) (cs : List Chunk) (txt : String),
    (∀ e ∈ es, ('\x7b' : Char) ∉ e.data) →
    (∀ s, Chunk.seg s ∈ cs → ('\x7b' : Char) ∉ s) →
    (∀ i, i ∈ blkIdxs cs → k ≤ i ∧ i < k + es.length) →
    txt.data = renderC cs →
    (placeExceptionsGo k es txt).data =
      unmaskF (fun i => (es.getD (i - k) "").data) cs := by
  intro es
  induction es with
  | nil =>
    intro k cs txt _ _ hidx hdata
    show txt.data = _
    rw [hdata]
    exact (unmaskF_noblk _ cs (fun i hi => by
      have := hidx i hi
      simp only [List.length_nil] at this
      omega)).symm
  | cons e es' ih =>
    intro k cs txt hes hsegs hidx hdata
    show (placeExceptionsGo (k + 1) es' (pyReplaceAll txt (exception_placeholder k) e)).data = _
    have hdata2 : (pyReplaceAll txt (exception_placeholder k) e).data =
        renderC (cs.map (replaceBlkC k e.data)) := by
      show replaceAllL (exception_placeholder k).data e.data txt.data = _
      rw [exception_placeholder_data, hdata]
      exact restore_step k e.data cs hsegs
    rw [ih (k + 1) (cs.map (replaceBlkC k e.data)) _
      (fun x hx => hes x (List.mem_cons_of_mem e hx))
      (segs_replaceBlk k e.data (hes e (List.mem_cons_self e es')) cs hsegs)
      (fun i hi => by
        have h2 := blkIdxs_replaceBlk k e.data cs i hi
        have h3 := hidx i h2.1
        have h4 := h2.2
        simp only [List.length_cons] at h3
        omega)
      hdata2]
    exact unmaskF_replaceBlk k e.data _ _ (by simp) cs (fun i hi hik => by
      have h3 := hidx i hi
      have h5 : i - k = (i - (k + 1)) + 1 := by omega
      show (es'.getD (i - (k + 1)) "").data = ((e :: es').getD (i - k) "").data
      rw [h5, List.getD_cons_succ])

/-- The masking loop of `exclude_exceptions` over a ledger: the result
renders a well-formed ledger whose new blocks carry the indices of the
processed exceptions, and unmasking undoes the whole loop. -/
theorem mask_loop : ∀ (es : List String) (k : Nat) (cs : List Chunk) (txt : String),
    (∀ e ∈ es, ('\x7b' : Char) ∉ e.data ∧ ('\x7d' : Char) ∉ e.data ∧
      ∃ c ∈ e.data, mustCh c = true) →
    chunksWF true cs → txt.data = renderC cs →
    ∃ cs2, chunksWF true cs2 ∧
      (replacePlaceholdersGo k es txt).data = renderC cs2 ∧
      (∀ f : Nat → List Char, (∀ j, j < es.length → f (k + j) = (es.getD j "").data) →
        unmaskF f cs2 = unmaskF f cs) ∧
      (∀ i, i ∈ blkIdxs cs2 → i ∈ blkIdxs cs ∨ (k ≤ i ∧ i < k + es.length)) := by
  intro es
  induction es with
  | nil =>
    intro k cs txt _ hwf hdata
    exact ⟨cs, hwf, hdata, fun f _ => rfl, fun i hi => Or.inl hi⟩
  | cons e es' ih =>
    intro k cs txt hes hwf hdata
    obtain ⟨hlb, hrb, hmust⟩ := hes e (List.mem_cons_self e es')
    obtain ⟨cs1, hwf1, hrw1, hum1, hidx1⟩ := mask_step e.data k hlb hrb hmust cs true hwf
    have hdata1 : (pyReplaceFirst txt e (exception_placeholder k)).data = renderC cs1 := by
      show replaceFirstL e.data (exception_placeholder k).data txt.data = _
      rw [exception_placeholder_data, hdata]
      exact hrw1
    obtain ⟨cs2, hwf2, hrw2, hum2, hidx2⟩ := ih (k + 1) cs1 _
      (fun x hx => hes x (List.mem_cons_of_mem e hx)) hwf1 hdata1
    refine ⟨cs2, hwf2, hrw2, ?_, ?_⟩
    · intro f hf
      rw [hum2 f (fun j hj => by
        have h6 := hf (j + 1) (by simp only [List.length_cons]; omega)
        have h7 : k + 1 + j = k + (j + 1) := by omega
        rw [h7]
        simpa only [List.getD_cons_succ] using h6)]
      exact hum1 f (by
        have h6 := hf 0 (by simp only [List.length_cons]; omega)
        simpa using h6)
    · intro i hi
      rcases hidx2 i hi with h | h
      · rcases hidx1 i h with h2 | h2
        · exact Or.inl h2
        · subst h2
          exact Or.inr (by simp only [List.length_cons]; omega)
      · exact Or.inr (by
          simp only [List.length_cons] at h ⊢
          omega)

/-- Strings with equal code points are equal. -/
theorem str_ext (a b : String) (h : a.data = b.data) : a = b := by
  cases a
  cases b
  exact congrArg String.mk h

/-- C2 (amended): for every input without a left-brace character,
restoring after extraction is the identity: `place_exceptions` applied
to the `processed_text` and `exceptions` of `exclude_exceptions`
returns exactly the input, regardless of which categories matched. -/
theorem c2_round_trip_amended (text : String) (h : ('\x7b' : Char) ∉ text.data) :
    place_exceptions (exclude_exceptions text).processed_text
      (exclude_exceptions text).exceptions = text := by
  have hE := exceptions_good text
  obtain ⟨cs2, hwf2, hrw2, hum2, hidx2⟩ :=
    mask_loop (exclude_exceptions text).exceptions 0 [Chunk.seg text.data] text hE
      ⟨rfl, h, trivial⟩ (by simp [renderC])
  have hfin := restore_loop (exclude_exceptions text).exceptions 0 cs2
    (replacePlaceholdersGo 0 (exclude_exceptions text).exceptions text)
    (fun e he => (hE e he).1)
    (chunksWF_segs cs2 true hwf2)
    (fun i hi => by
      rcases hidx2 i hi with h2 | h2
      · exact absurd h2 (by simp [blkIdxs])
      · simpa using h2)
    hrw2
  rw [hum2 (fun i => (((exclude_exceptions text).exceptions.getD (i - 0) "").data)
    ) (fun j hj => by simp)] at hfin
  have hone : unmaskF (fun i =>
      (((exclude_exceptions text).exceptions.getD (i - 0) "").data))
      [Chunk.seg text.data] = text.data := by
    simp [unmaskF]
  rw [hone] at hfin
  show placeExceptionsGo 0 (exclude_exceptions text).exceptions
      (replacePlaceholdersGo 0 (exclude_exceptions text).exceptions text) = text
  exact str_ext _ _ hfin

/-- Witness for the amended C2 theorem at a concrete input. -/
theorem c2_round_trip_amended_witness :
    ('\x7b' : Char) ∉ ("Mail me@example.com now" : String).data ∧
    place_exceptions (exclude_exceptions "Mail me@example.com now").processed_text
      (exclude_exceptions "Mail me@example.com now").exceptions =
      "Mail me@example.com now" :=
  ⟨by decide, c2_round_trip_amended "Mail me@example.com now" (by decide)⟩

/-!
Concrete-evaluation theorems (claim instances computed through the
regex engine).
-/

/-- C6: hyphen runs by length in the dash normalizer: `1-2-3` becomes
en-dash-joined `1–2–3` in every supported locale (the cardinal-number
rule is locale-independent), while `word ---- word` — a run of four
hyphens between spaced words — is returned completely unchanged by
`fix_dash`. -/
theorem c6_dash_runs :
    (∀ loc ∈ allLocales, fix_dash "1-2-3" loc = "1–2–3")
    ∧ (∀ loc ∈ allLocales, fix_dash "word ---- word" loc = "word ---- word") := by
  decide

/-- Witness for C6 at the concrete locale `cs`. -/
theorem c6_dash_runs_witness :
    fix_dash "1-2-3" localeCs = "1–2–3"
    ∧ fix_dash "word ---- word" localeCs = "word ---- word" :=
  ⟨c6_dash_runs.1 localeCs (by decide), c6_dash_runs.2 localeCs (by decide)⟩

set_option maxRecDepth 100000 in
set_option maxHeartbeats 4000000 in
/-- C4: prime versus quote disambiguation in the quote modules: for
every supported locale, `12' 45"` comes out of the double- and
single-quote passes as `12′ 45″` (single prime after 12, double prime
after 45), while `"Localhost 3000"` comes out as the locale's opening
double quote, `Localhost 3000`, and the locale's closing double quote
— not as primes. -/
theorem c4_prime_vs_quote :
    (∀ loc ∈ allLocales,
      fix_single_quotes (fix_double_quotes "12\x27 45\"" loc) loc = "12′ 45″")
    ∧ (∀ loc ∈ allLocales,
      fix_single_quotes (fix_double_quotes "\"Localhost 3000\"" loc) loc =
        loc.double_quote_open ++ "Localhost 3000" ++ loc.double_quote_close) := by
  decide

/-- Witness for C4 at the concrete locale `rue`. -/
theorem c4_prime_vs_quote_witness :
    fix_single_quotes (fix_double_quotes "12\x27 45\"" localeRue) localeRue = "12′ 45″"
    ∧ fix_single_quotes (fix_double_quotes "\"Localhost 3000\"" localeRue) localeRue =
      "«Localhost 3000»" :=
  ⟨c4_prime_vs_quote.1 localeRue (by decide),
   (c4_prime_vs_quote.2 localeRue (by decide)).trans (by decide)⟩

set_option maxRecDepth 100000 in
set_option maxHeartbeats 1000000 in
/-- Counterexample to C5 as stated: at locale `en-us`, a double-quoted
single word with a trailing comma is left unchanged by
`swap_quotes_and_terminal_punctuation` (the claim says the comma moves
outside), while a trailing exclamation mark is moved outside the
quotes (the claim says it stays inside). -/
theorem c5_swap_counterexample :
    swap_quotes_and_terminal_punctuation "He said “word,”" localeEnUs = "He said “word,”"
    ∧ swap_quotes_and_terminal_punctuation "He said “word!”" localeEnUs = "He said “word”!" := by
  decide

set_option maxRecDepth 100000 in
set_option maxHeartbeats 4000000 in
/-- C5 (amended): for every supported locale and a double-quoted
single word inside a sentence, the double-quote disambiguator moves a
trailing period, exclamation mark, question mark, or ellipsis outside
the quotes (and, when the quote is followed by a space and a lowercase
continuation, case 2 puts it back inside, so the text is unchanged
overall); trailing commas, semicolons, and colons are never
repositioned. -/
theorem c5_swap_amended :
    ∀ loc ∈ allLocales,
      (swap_quotes_and_terminal_punctuation
        ("He said " ++ loc.double_quote_open ++ "word." ++ loc.double_quote_close) loc =
        "He said " ++ loc.double_quote_open ++ "word" ++ loc.double_quote_close ++ ".")
      ∧ (swap_quotes_and_terminal_punctuation
        ("He said " ++ loc.double_quote_open ++ "word!" ++ loc.double_quote_close) loc =
        "He said " ++ loc.double_quote_open ++ "word" ++ loc.double_quote_close ++ "!")
      ∧ (swap_quotes_and_terminal_punctuation
        ("He said " ++ loc.double_quote_open ++ "word?" ++ loc.double_quote_close) loc =
        "He said " ++ loc.double_quote_open ++ "word" ++ loc.double_quote_close ++ "?")
      ∧ (swap_quotes_and_terminal_punctuation
        ("He said " ++ loc.double_quote_open ++ "word…" ++ loc.double_quote_close) loc =
        "He said " ++ loc.double_quote_open ++ "word" ++ loc.double_quote_close ++ "…")
      ∧ (swap_quotes_and_terminal_punctuation
        ("He said " ++ loc.double_quote_open ++ "word." ++ loc.double_quote_close ++
          " and left.") loc =
        "He said " ++ loc.double_quote_open ++ "word." ++ loc.double_quote_close ++
          " and left.")
      ∧ (swap_quotes_and_terminal_punctuation
        ("He said " ++ loc.double_quote_open ++ "word," ++ loc.double_quote_close) loc =
        "He said " ++ loc.double_quote_open ++ "word," ++ loc.double_quote_close)
      ∧ (swap_quotes_and_terminal_punctuation
        ("He said " ++ loc.double_quote_open ++ "word;" ++ loc.double_quote_close) loc =
        "He said " ++ loc.double_quote_open ++ "word;" ++ loc.double_quote_close)
      ∧ (swap_quotes_and_terminal_punctuation
        ("He said " ++ loc.double_quote_open ++ "word:" ++ loc.double_quote_close) loc =
        "He said " ++ loc.double_quote_open ++ "word:" ++ loc.double_quote_close) := by
  decide

/-- Witness for C5 (amended) at the concrete locale `de-de`. -/
theorem c5_swap_amended_witness :
    swap_quotes_and_terminal_punctuation "He said „word.“" localeDeDe = "He said „word“." :=
  ((c5_swap_amended localeDeDe (by decide)).1).trans rfl

set_option maxRecDepth 100000 in
set_option maxHeartbeats 4000000 in
/-- C9: in every supported locale the single-quote module rewrites
`rock 'n' roll` with apostrophes around the `n` (and non-breaking
spaces from the contraction rule), and the locale's single-quote
open/close pair around `n` does not occur in the output, because
contraction recognition runs before the generic pair identification. -/
theorem c9_contracted_and :
    (∀ loc ∈ allLocales,
      fix_single_quotes "rock \x27n\x27 roll" loc =
        "rock" ++ NBSP ++ "’n’" ++ NBSP ++ "roll")
    ∧ (∀ loc ∈ allLocales,
      ¬ ((loc.single_quote_open ++ "n" ++ loc.single_quote_close).data <:+:
        ("rock" ++ NBSP ++ "’n’" ++ NBSP ++ "roll").data)) := by
  decide

/-- Witness for C9 at the concrete locale `sk`. -/
theorem c9_contracted_and_witness :
    fix_single_quotes "rock \x27n\x27 roll" localeSk =
      "rock" ++ NBSP ++ "’n’" ++ NBSP ++ "roll" :=
  c9_contracted_and.1 localeSk (by decide)

set_option maxRecDepth 100000 in
set_option maxHeartbeats 4000000 in
/-- C10: the placeholder markers are not collision-free with input
text: the input `{{typopo__endash}}` contains no hyphen, dash or
quote-like character, yet `fix_dash` changes it, rewriting the literal
placeholder to an en dash, in every locale; likewise
`place_locale_double_quotes` rewrites literal `{{typopo__ldq}}` /
`{{typopo__rdq}}` / `{{typopo__double-prime}}` input to the locale
quote glyphs and the double prime. -/
theorem c10_placeholder_collision :
    (("\x7b\x7btypopo__endash\x7d\x7d" : String).data.any
      (fun c => [HYPHEN, EN_DASH, EM_DASH, '"', '\x27', '‘', '’', '“', '”', '„',
        '‚', '«', '»', '‹', '›', '′', '″', '´', '\x60', 'ʼ', '‛'].contains c) = false)
    ∧ (∀ loc ∈ allLocales, fix_dash "\x7b\x7btypopo__endash\x7d\x7d" loc = "–")
    ∧ ("\x7b\x7btypopo__endash\x7d\x7d" : String) ≠ "–"
    ∧ (∀ loc ∈ allLocales,
        place_locale_double_quotes "\x7b\x7btypopo__ldq\x7d\x7d" loc = loc.double_quote_open
        ∧ place_locale_double_quotes "\x7b\x7btypopo__rdq\x7d\x7d" loc = loc.double_quote_close
        ∧ place_locale_double_quotes "\x7b\x7btypopo__double-prime\x7d\x7d" loc = "″") := by
  decide

/-- Witness for C10 at the concrete locale `en-us`. -/
theorem c10_placeholder_collision_witness :
    fix_dash "\x7b\x7btypopo__endash\x7d\x7d" localeEnUs = "–"
    ∧ place_locale_double_quotes "\x7b\x7btypopo__ldq\x7d\x7d" localeEnUs = "“" :=
  ⟨c10_placeholder_collision.2.1 localeEnUs (by decide),
   ((c10_placeholder_collision.2.2.2 localeEnUs (by decide)).1).trans (by decide)⟩

set_option maxRecDepth 100000 in
set_option maxHeartbeats 4000000 in
/-- Counterexample to C2 as stated: on an input that already contains
the literal placeholder `{{typopo__exception-0}}` next to an email
address, masking maps both to the same placeholder text, and the
global restoration of `place_exceptions` rewrites both occurrences, so
the round trip returns `a@b.com a@b.com` instead of the input. -/
theorem c2_round_trip_counterexample :
    place_exceptions
      (exclude_exceptions "\x7b\x7btypopo__exception-0\x7d\x7d a@b.com").processed_text
      (exclude_exceptions "\x7b\x7btypopo__exception-0\x7d\x7d a@b.com").exceptions ≠
    "\x7b\x7btypopo__exception-0\x7d\x7d a@b.com" := by
  decide
